import Mathlib

/-!
Verification development for the gang-scheduling core
(src/internal/scheduler/gang_scheduler.go) and the job-iteration facility
(src/internal/scheduler/jobiteration.go).

The orchestration logic of the gang scheduler is embedded directly from the
source.  The external collaborators that live outside the two source files
(the scheduling context, node database, constraints evaluator and rate
limiters) are modelled from the specification, as marked on each definition.
Fallible Go calls returning `(value, err)` are embedded as `Except`;
machine `float64` means are embedded as exact rationals (the sums involved
are exact integers, so the comparisons agree); node-DB transactions are
represented by commit/abort counters on the execution trace.
-/

namespace ArmadaSpec

/-- `PodSchedulingContext` as used by the gang scheduler: the node the pod was
bound to (empty string = unbound) and the priority it was scheduled at. -/
structure PodSchedulingContext where
  NodeId : String
  ScheduledAtPriority : Int
deriving DecidableEq

/-- The part of pod requirements the gang scheduler mutates: the node
selector, a string-to-string mapping (embedded as an association list). -/
structure PodRequirements where
  NodeSelector : List (String × String)
deriving DecidableEq

/-- One job scheduling context (JSC).  `SchedulingKey` models
`Job.GetSchedulingKey() → (key, present?)`. -/
structure JobSchedulingContext where
  JobId : String
  SchedulingKey : Option String
  PodRequirements : PodRequirements
  PodSchedulingContext : Option PodSchedulingContext
  ShouldFail : Bool
  UnschedulableReason : String
deriving DecidableEq

/-- Modelled from the spec: a JSC `IsSuccessful()` iff its
PodSchedulingContext is non-null with a non-empty `NodeId` and its
`UnschedulableReason` is empty (spec §3; the context package is not under
src/). -/
def JobSchedulingContext.IsSuccessful (j : JobSchedulingContext) : Bool :=
  match j.PodSchedulingContext with
  | some p => decide (p.NodeId ≠ "") && decide (j.UnschedulableReason = "")
  | none => false

/-- Gang scheduling context (GSC). -/
structure GangSchedulingContext where
  Queue : String
  JobSchedulingContexts : List JobSchedulingContext
  NodeUniformityLabel : String
  AllJobsEvicted : Bool
deriving DecidableEq

/-- `gctx.Cardinality()` is the number of member JSCs. -/
def GangSchedulingContext.Cardinality (g : GangSchedulingContext) : Nat :=
  g.JobSchedulingContexts.length

/-- The job ids of a gang, in member order. -/
def gangJobIds (g : GangSchedulingContext) : List String :=
  g.JobSchedulingContexts.map (fun j => j.JobId)

/-- Modelled from the spec: the scheduling context (SC) of one round.  The
real SC (not under src/) keeps per-queue sub-contexts, rate limiters bound to
the round start time, and the infeasible-key cache.  We record: the round
start time, the queues that have a queue sub-context, the token reservations
made on the global and per-queue limiters (as event lists of
`(time, tokens)`), the set of tracked gangs (each represented by its job-id
list), the tracked per-job records, and `UnfeasibleSchedulingKeys`. -/
structure SchedulingContext where
  Started : Int
  Queues : List String
  GlobalReservations : List (Int × Nat)
  QueueReservations : List (String × Int × Nat)
  gangs : List (List String)
  jobs : List (String × JobSchedulingContext)
  UnfeasibleSchedulingKeys : List (String × JobSchedulingContext)
deriving DecidableEq

/-- Modelled from the spec: `AddGangSchedulingContext` tracks the gang and
each of its member jobs; adding an already-tracked gang changes nothing
(idempotent-safe, spec §4.3). -/
def SchedulingContext.AddGangSchedulingContext (s : SchedulingContext)
    (g : GangSchedulingContext) : SchedulingContext :=
  { s with
    gangs := if gangJobIds g ∈ s.gangs then s.gangs else s.gangs ++ [gangJobIds g],
    jobs := g.JobSchedulingContexts.foldl
      (fun js j => (js.filter (fun p => p.1 ≠ j.JobId)) ++ [(j.JobId, j)]) s.jobs }

/-- Modelled from the spec: `EvictJob` removes one job's record from the SC
accounting. -/
def SchedulingContext.EvictJob (s : SchedulingContext) (jobId : String) :
    SchedulingContext :=
  { s with jobs := s.jobs.filter (fun p => p.1 ≠ jobId) }

/-- Modelled from the spec: `EvictGang` removes the given jobs and the gang
they form from the SC accounting. -/
def SchedulingContext.EvictGang (s : SchedulingContext) (ids : List String) :
    SchedulingContext :=
  { s with
    gangs := s.gangs.filter (fun gs => gs ≠ ids),
    jobs := s.jobs.filter (fun p => p.1 ∉ ids) }

/-- `schedulerobjects.EmptySchedulingKey` is modelled by the empty string. -/
def EmptySchedulingKey : String := ""

/-- The environment of one `Schedule` call: the outcomes of the external
collaborators consumed by the call.  `roundRes`/`gangRes` are the results of
`CheckRoundConstraints`/`CheckConstraints` (each invoked at most once per
call); `IndexedNodeLabelValues` gives the indexed values of a label (in map
iteration order) or `none` when the label is not indexed;
`scheduleMany n jscs` is the result of the `n`-th `ScheduleManyWithTxn` call
of this `Schedule` call: an internal error, or `(ok, f)` where `f i` is the
PodSchedulingContext the node DB leaves on the `i`-th JSC (spec §3: the call
populates each JSC's PodSchedulingContext); `MinPriority` is the node-DB
constant; `fallbackKey` models `SchedulingKeyFromLegacySchedulerJob`. -/
structure Env where
  roundRes : Except String (Bool × String)
  gangRes : Except String (Bool × String)
  IndexedNodeLabelValues : String → Option (List String)
  scheduleMany : Nat → List JobSchedulingContext →
    Except String (Bool × (Nat → Option PodSchedulingContext))
  MinPriority : Int
  fallbackKey : String → String
  skipUnsuccessfulSchedulingKeyCheck : Bool

/-- Go map assignment `sel[k] = v` on an association list. -/
def setSelector (sel : List (String × String)) (k v : String) :
    List (String × String) :=
  if sel.any (fun p => p.1 = k) then
    sel.map (fun p => if p.1 = k then (k, v) else p)
  else sel ++ [(k, v)]

/-- `clearNodeBindings` (gang_scheduler.go:222): clear `NodeId` on the JSC's
PodSchedulingContext when one exists. -/
def clearNodeBindings (j : JobSchedulingContext) : JobSchedulingContext :=
  { j with PodSchedulingContext :=
      j.PodSchedulingContext.map (fun p => { p with NodeId := "" }) }

/-- `addNodeSelectorToGctx` (gang_scheduler.go:257): add `{k: v}` to every
member's node selector. -/
def addNodeSelectorToGctx (g : GangSchedulingContext) (k v : String) :
    GangSchedulingContext :=
  { g with JobSchedulingContexts := (g.JobSchedulingContexts.map
      (fun j => { j with PodRequirements :=
        { NodeSelector := setSelector j.PodRequirements.NodeSelector k v } })) }

/-- Apply the PodSchedulingContexts produced by a `ScheduleManyWithTxn` call
to the member JSCs, position by position (the node DB mutates each JSC's
PodSchedulingContext in place). -/
def applyPodSchedulingContexts :
    List JobSchedulingContext → (Nat → Option PodSchedulingContext) → Nat →
    List JobSchedulingContext
  | [], _, _ => []
  | j :: rest, f, k =>
    { j with PodSchedulingContext := f k } ::
      applyPodSchedulingContexts rest f (k + 1)

/-- Go `int32` arithmetic: reduce to the signed 32-bit representative in
`[-2^31, 2^31)` (two's-complement wraparound). -/
def int32wrap (x : Int) : Int :=
  let r := Int.emod x 4294967296
  if r < 2147483648 then r else r - 4294967296

/-- Base-2 logarithm on `Nat` by structural recursion on a fuel argument
(so that it evaluates inside the kernel): `natLog2Aux fuel n` is
`floor (log2 n)` whenever `n ≤ fuel` and `n > 0`. -/
def natLog2Aux : Nat → Nat → Nat
  | 0, _ => 0
  | fuel + 1, n => if 2 ≤ n then natLog2Aux fuel (n / 2) + 1 else 0

def natLog2 (n : Nat) : Nat := natLog2Aux n n

/-- Round the fraction `num / den` (with `den > 0`) to the nearest integer,
ties to even — the IEEE-754 default rounding used by Go's `float64`
arithmetic. -/
def roundHalfEven (num den : Nat) : Nat :=
  let t := num / den
  let r := num % den
  if 2 * r < den then t
  else if den < 2 * r then t + 1
  else if t % 2 = 0 then t else t + 1

/-- The nearest IEEE-754 binary64 value to the positive rational `p / q`
(`p, q > 0`), as an exact rational: `e` is the floor of its base-2
logarithm, the significand is rounded to 53 bits (quantum `2^(e-52)`,
ties to even), and magnitudes below `2^-1022` use the subnormal quantum
`2^-1074`.  Every value this development rounds is far below the binary64
overflow threshold (sums are `int32`, cardinalities are Go `int`), so
there is no overflow case. -/
def floatRoundPos (p q : Nat) : ℚ :=
  let d : Int := (natLog2 p : Int) - (natLog2 q : Int)
  let e : Int :=
    if (if 0 ≤ d then decide (q * 2 ^ d.toNat ≤ p) else decide (q ≤ p * 2 ^ (-d).toNat)) = true
    then d else d - 1
  let j : Int := if e < -1022 then 1074 else 52 - e
  let m : Nat :=
    if 0 ≤ j then roundHalfEven (p * 2 ^ j.toNat) q
    else roundHalfEven p (q * 2 ^ (-j).toNat)
  if 0 ≤ j then Rat.divInt (m : Int) ((2 : Int) ^ j.toNat)
  else ((m * 2 ^ (-j).toNat : Nat) : ℚ)

/-- Round a rational to the nearest binary64 value (round to nearest, ties
to even).  Integers of magnitude at most `2^53` are exactly representable
and returned unchanged. -/
def floatRound (x : ℚ) : ℚ :=
  if x.num = 0 then 0
  else if x.den = 1 ∧ x.num.natAbs ≤ 2 ^ 53 then x
  else if x.num < 0 then - floatRoundPos x.num.natAbs x.den
  else floatRoundPos x.num.natAbs x.den

/-- Exact rational division, written so that it evaluates inside the
kernel. -/
def ratDiv (a b : ℚ) : ℚ :=
  Rat.divInt (a.num * (b.den : Int)) ((a.den : Int) * b.num)

/-- Binary64 division of two (exactly represented) finite values: IEEE-754
division is the correctly rounded exact quotient.  `none` models the `NaN`
produced by `0/0` when the divisor is zero (here the divisor is the gang
cardinality, whose only zero case is the empty gang, where the dividend is
also zero). -/
def floatDiv (a b : ℚ) : Option ℚ :=
  if b = 0 then none else some (floatRound (ratDiv a b))

/-- Binary64 `<=` on finite values is the rational order; any comparison
with `NaN` is false. -/
def floatLe : Option ℚ → Option ℚ → Bool
  | some x, some y => decide (x ≤ y)
  | _, _ => false

/-- `float64(nodedb.MinPriority)`: the node-DB constant is an `int32`, so
its `float64` conversion is exact. -/
def minPriorityF (env : Env) : ℚ := ((int32wrap env.MinPriority : Int) : ℚ)

/-- The `var sum int32` accumulation of `meanScheduledAtPriorityFromGctx`
(gang_scheduler.go:267-273): fold `ScheduledAtPriority` over the members
with wrapping `int32` addition, or `none` as soon as a member lacks a
PodSchedulingContext (the early return). -/
def sumScheduledAtPriority : List JobSchedulingContext → Int → Option Int
  | [], sum => some sum
  | j :: rest, sum =>
    match j.PodSchedulingContext with
    | none => none
    | some p => sumScheduledAtPriority rest (int32wrap (sum + p.ScheduledAtPriority))

/-- `meanScheduledAtPriorityFromGctx` (gang_scheduler.go:266): the mean
scheduled-at-priority over the gang, and whether it could be computed.  The
Go computation is `float64(sum) / float64(gctx.Cardinality())` with `sum` an
`int32`: `float64(sum)` is exact (`2^31 < 2^53`), and the division is the
correctly rounded quotient — `none` is the `NaN` of the empty gang's
`0/0`. -/
def meanScheduledAtPriorityFromGctx (g : GangSchedulingContext) : Option ℚ × Bool :=
  match sumScheduledAtPriority g.JobSchedulingContexts 0 with
  | none => (some 0, false)
  | some s => (floatDiv (s : ℚ) (floatRound ((g.Cardinality : Nat) : ℚ)), true)

/-- Result of one `tryScheduleGangWithTxn` call: `ok`, the unschedulable
reason, and the gang context with its JSCs as mutated by the call. -/
structure TxnResult where
  ok : Bool
  unschedulableReason : String
  gctx : GangSchedulingContext

/-- `tryScheduleGangWithTxn` (gang_scheduler.go:229): call
`ScheduleManyWithTxn`; on `ok=false` clear node bindings on every JSC and
pick the reason by cardinality; on `ok=true` clear bindings and set the
no-fit reason on every `ShouldFail` member. -/
def tryScheduleGangWithTxn (env : Env) (attempt : Nat)
    (gctx : GangSchedulingContext) : Except String TxnResult :=
  match env.scheduleMany attempt gctx.JobSchedulingContexts with
  | .error e => .error e
  | .ok (ok, f) =>
    let jscs := applyPodSchedulingContexts gctx.JobSchedulingContexts f 0
    if !ok then
      .ok { ok := false
            unschedulableReason :=
              if gctx.Cardinality > 1 then
                "unable to schedule gang since minimum cardinality not met"
              else "job does not fit on any node"
            gctx := { gctx with JobSchedulingContexts := jscs.map clearNodeBindings } }
    else
      .ok { ok := true
            unschedulableReason := ""
            gctx := { gctx with JobSchedulingContexts := (jscs.map
              (fun j => if j.ShouldFail then
                { clearNodeBindings j with
                    UnschedulableReason := "job does not fit on any node" }
                else j)) } }

/-- Outcome of a single transactional attempt: the `(ok, reason)` result or
an error, the mutated gang context, and the transaction trace (number of
`ScheduleManyWithTxn` calls made so far in this `Schedule` call, and the
commit/abort counters). -/
structure GangAttempt where
  res : Except String (Bool × String)
  gctx : GangSchedulingContext
  attempts : Nat
  commits : Nat
  aborts : Nat

/-- `tryScheduleGang` (gang_scheduler.go:212): open a write txn, try the
gang, commit on success, abort otherwise (the deferred `txn.Abort()` is a
no-op after a commit). -/
def tryScheduleGang (env : Env) (attempts commits aborts : Nat)
    (gctx : GangSchedulingContext) : GangAttempt :=
  match tryScheduleGangWithTxn env attempts gctx with
  | .error e =>
    { res := .error e, gctx := gctx, attempts := attempts + 1,
      commits := commits, aborts := aborts + 1 }
  | .ok t =>
    if t.ok then
      { res := .ok (true, t.unschedulableReason), gctx := t.gctx,
        attempts := attempts + 1, commits := commits + 1, aborts := aborts }
    else
      { res := .ok (false, t.unschedulableReason), gctx := t.gctx,
        attempts := attempts + 1, commits := commits, aborts := aborts + 1 }

/-- Ghost trace entry for one uniformity-loop attempt: the label value tried,
whether `ScheduleManyWithTxn` reported `ok`, and the mean scheduled-at-
priority when it could be computed. -/
structure AttemptRecord where
  value : String
  ok : Bool
  mean : Option ℚ
deriving DecidableEq

/-- Result of `trySchedule`: the `(ok, reason)` result or an error, the
mutated gang context, the transaction trace, the uniformity-label value whose
placement was committed (ghost; `none` when no uniformity search committed),
and the per-attempt ghost trace of the uniformity loop. -/
structure TryResult where
  res : Except String (Bool × String)
  gctx : GangSchedulingContext
  attempts : Nat
  commits : Nat
  aborts : Nat
  committedValue : Option String
  trace : List AttemptRecord

/-- The `for value := range nodeUniformityLabelValues` loop of `trySchedule`
(gang_scheduler.go:169-209), including the after-loop fallback: the loop
carries the 1-based counter `i`, the best value and mean seen so far, and
the mutated gang context; after the loop, if no best value was found the
gang fails, otherwise the best value is re-applied and a fresh transactional
attempt materializes the placement. -/
def uniformitySearchLoop (env : Env) (label : String) (total : Nat) :
    List String → Nat → String → Option ℚ → GangSchedulingContext → Nat → Nat →
    Nat → List AttemptRecord → TryResult
  | [], _i, bestValue, _minMean, gctx, attempts, commits, aborts, trace =>
    if bestValue = "" then
      { res := .ok (false, "at least one job in the gang does not fit on any node"),
        gctx := gctx, attempts := attempts, commits := commits,
        aborts := aborts, committedValue := none, trace := trace }
    else
      let gctx := addNodeSelectorToGctx gctx label bestValue
      let a := tryScheduleGang env attempts commits aborts gctx
      { res := a.res, gctx := a.gctx, attempts := a.attempts,
        commits := a.commits, aborts := a.aborts,
        committedValue :=
          (match a.res with
           | .ok (true, _) => some bestValue
           | _ => none),
        trace := trace }
  | v :: rest, i, bestValue, minMean, gctx, attempts, commits, aborts, trace =>
    let i := i + 1
    if v = "" then
      uniformitySearchLoop env label total rest i bestValue minMean gctx
        attempts commits aborts trace
    else
      let gctx := addNodeSelectorToGctx gctx label v
      match tryScheduleGangWithTxn env attempts gctx with
      | .error e =>
        { res := .error e, gctx := gctx, attempts := attempts + 1,
          commits := commits, aborts := aborts + 1, committedValue := none,
          trace := trace }
      | .ok t =>
        if t.ok then
          match meanScheduledAtPriorityFromGctx t.gctx with
          | (m, mok) =>
            if !mok then
              uniformitySearchLoop env label total rest i bestValue minMean
                t.gctx (attempts + 1) commits (aborts + 1)
                (trace ++ [{ value := v, ok := true, mean := none }])
            else if m = some (minPriorityF env) then
              { res := .ok (true, ""), gctx := t.gctx,
                attempts := attempts + 1, commits := commits + 1,
                aborts := aborts, committedValue := some v,
                trace := trace ++ [{ value := v, ok := true, mean := m }] }
            else if bestValue = "" ∨ floatLe m minMean = true then
              if i = total then
                { res := .ok (true, ""), gctx := t.gctx,
                  attempts := attempts + 1, commits := commits + 1,
                  aborts := aborts, committedValue := some v,
                  trace := trace ++ [{ value := v, ok := true, mean := m }] }
              else
                uniformitySearchLoop env label total rest i v m t.gctx
                  (attempts + 1) commits (aborts + 1)
                  (trace ++ [{ value := v, ok := true, mean := m }])
            else
              uniformitySearchLoop env label total rest i bestValue minMean
                t.gctx (attempts + 1) commits (aborts + 1)
                (trace ++ [{ value := v, ok := true, mean := m }])
        else
          uniformitySearchLoop env label total rest i bestValue minMean
            t.gctx (attempts + 1) commits (aborts + 1)
            (trace ++ [{ value := v, ok := false, mean := none }])

/-- `trySchedule` (gang_scheduler.go:145): with no uniformity label, a single
transactional attempt; otherwise the uniformity-label search over
`IndexedNodeLabelValues`. -/
def trySchedule (env : Env) (gctx : GangSchedulingContext) : TryResult :=
  if gctx.NodeUniformityLabel = "" then
    let a := tryScheduleGang env 0 0 0 gctx
    { res := a.res, gctx := a.gctx, attempts := a.attempts,
      commits := a.commits, aborts := a.aborts, committedValue := none,
      trace := [] }
  else
    match env.IndexedNodeLabelValues gctx.NodeUniformityLabel with
    | none =>
      { res := .ok (false,
          "uniformity label " ++ gctx.NodeUniformityLabel ++ " is not indexed"),
        gctx := gctx, attempts := 0, commits := 0, aborts := 0,
        committedValue := none, trace := [] }
    | some values =>
      if values.length = 0 then
        { res := .ok (false,
            "no nodes with uniformity label " ++ gctx.NodeUniformityLabel),
          gctx := gctx, attempts := 0, commits := 0, aborts := 0,
          committedValue := none, trace := [] }
      else
        uniformitySearchLoop env gctx.NodeUniformityLabel values.length values
          0 "" (some 0) gctx 0 0 0 []

/-- `updateGangSchedulingContextOnSuccess` (gang_scheduler.go:42): when the
gang was added to the SC, evict every member that is not successful. -/
def updateGangSchedulingContextOnSuccess (sctx : SchedulingContext)
    (gctx : GangSchedulingContext) (gangAdded : Bool) : SchedulingContext :=
  if !gangAdded then sctx
  else gctx.JobSchedulingContexts.foldl
    (fun s j => if !j.IsSuccessful then s.EvictJob j.JobId else s) sctx

/-- The infeasible-key registration block of
`updateGangSchedulingContextOnFailure` (gang_scheduler.go:80-96): only for
single-job gangs, only when not suppressed, only for a non-empty key, and
keeping the first witnessing JSC for each key. -/
def registerUnfeasibleKey (env : Env) (sctx : SchedulingContext)
    (gctx : GangSchedulingContext) : SchedulingContext :=
  if !env.skipUnsuccessfulSchedulingKeyCheck && decide (gctx.Cardinality = 1) then
    match gctx.JobSchedulingContexts with
    | [jctx] =>
      let schedulingKey :=
        match jctx.SchedulingKey with
        | some k => k
        | none => env.fallbackKey jctx.JobId
      if schedulingKey ≠ EmptySchedulingKey ∧
          sctx.UnfeasibleSchedulingKeys.all (fun p => p.1 ≠ schedulingKey) then
        { sctx with UnfeasibleSchedulingKeys :=
            sctx.UnfeasibleSchedulingKeys ++ [(schedulingKey, jctx)] }
      else sctx
    | _ => sctx
  else sctx

/-- `updateGangSchedulingContextOnFailure` (gang_scheduler.go:62): evict the
gang if it was added, stamp the unschedulable reason on every member, re-add
the gang, and register the infeasible scheduling key for single-job gangs
unless suppressed. -/
def updateGangSchedulingContextOnFailure (env : Env)
    (sctx : SchedulingContext) (gctx : GangSchedulingContext)
    (gangAdded : Bool) (reason : String) :
    SchedulingContext × GangSchedulingContext :=
  let sctx := if gangAdded then sctx.EvictGang (gangJobIds gctx) else sctx
  let gctx := { gctx with JobSchedulingContexts := (gctx.JobSchedulingContexts.map
      (fun j => { j with UnschedulableReason := reason })) }
  let sctx := sctx.AddGangSchedulingContext gctx
  (registerUnfeasibleKey env sctx gctx, gctx)

/-- The rate-limiter updates of the deferred block (gang_scheduler.go:118):
reserve `Cardinality()` tokens at the round start time on the global limiter
and, when the queue has a queue scheduling context, on the queue limiter. -/
def reserveTokens (sctx : SchedulingContext) (gctx : GangSchedulingContext) :
    SchedulingContext :=
  let s := { sctx with GlobalReservations :=
      sctx.GlobalReservations ++ [(sctx.Started, gctx.Cardinality)] }
  if gctx.Queue ∈ s.Queues then
    { s with QueueReservations :=
        s.QueueReservations ++ [(gctx.Queue, s.Started, gctx.Cardinality)] }
  else s

/-- Result of one `Schedule` call: the `(ok, reason)` result or an error, the
final gang context and scheduling context, and the transaction trace. -/
structure ScheduleResult where
  res : Except String (Bool × String)
  gctx : GangSchedulingContext
  sctx : SchedulingContext
  commits : Nat
  aborts : Nat
  committedValue : Option String
  trace : List AttemptRecord

/-- The body of `Schedule` after the round gate (gang_scheduler.go:132):
provisional admission into the SC, gang constraints for new gangs, then the
placement dispatch.  Returns the try-result, the SC after provisional
admission, and the `gangAddedToSchedulingContext` flag. -/
def scheduleCore (env : Env) (sctx : SchedulingContext)
    (gctx : GangSchedulingContext) :
    TryResult × SchedulingContext × Bool :=
  let sctx := sctx.AddGangSchedulingContext gctx
  if !gctx.AllJobsEvicted then
    match env.gangRes with
    | .error e =>
      ({ res := .error e, gctx := gctx, attempts := 0, commits := 0,
         aborts := 0, committedValue := none, trace := [] }, sctx, true)
    | .ok (cok, creason) =>
      if !cok then
        ({ res := .ok (false, creason), gctx := gctx, attempts := 0,
           commits := 0, aborts := 0, committedValue := none, trace := [] },
         sctx, true)
      else (trySchedule env gctx, sctx, true)
  else (trySchedule env gctx, sctx, true)

/-- The deferred bookkeeping of `Schedule` (gang_scheduler.go:111-130)
applied to the outcome of the core: nothing on error; rate-limiter
reservations iff `ok` and the gang is not fully evicted; then the
success/failure SC update. -/
def scheduleFinish (env : Env) (t : TryResult) (sctx1 : SchedulingContext)
    (gangAdded : Bool) (allJobsEvicted : Bool) : ScheduleResult :=
  match t.res with
  | .error e =>
    { res := .error e, gctx := t.gctx, sctx := sctx1, commits := t.commits,
      aborts := t.aborts, committedValue := t.committedValue, trace := t.trace }
  | .ok (ok, reason) =>
    let sctx2 := if ok && !allJobsEvicted then reserveTokens sctx1 t.gctx else sctx1
    if ok then
      { res := .ok (true, reason), gctx := t.gctx,
        sctx := updateGangSchedulingContextOnSuccess sctx2 t.gctx gangAdded,
        commits := t.commits, aborts := t.aborts,
        committedValue := t.committedValue, trace := t.trace }
    else
      let p := updateGangSchedulingContextOnFailure env sctx2 t.gctx gangAdded reason
      { res := .ok (false, reason), gctx := p.2, sctx := p.1,
        commits := t.commits, aborts := t.aborts,
        committedValue := t.committedValue, trace := t.trace }

/-- `Schedule` (gang_scheduler.go:101): the round gate for new gangs (before
the deferred bookkeeping is registered), then the core and the deferred
bookkeeping. -/
def Schedule (env : Env) (sctx : SchedulingContext)
    (gctx : GangSchedulingContext) : ScheduleResult :=
  if !gctx.AllJobsEvicted then
    match env.roundRes with
    | .error e =>
      { res := .error e, gctx := gctx, sctx := sctx, commits := 0,
        aborts := 0, committedValue := none, trace := [] }
    | .ok (rok, rreason) =>
      if !rok then
        { res := .ok (false, rreason), gctx := gctx, sctx := sctx,
          commits := 0, aborts := 0, committedValue := none, trace := [] }
      else
        let c := scheduleCore env sctx gctx
        scheduleFinish env c.1 c.2.1 c.2.2 gctx.AllJobsEvicted
  else
    let c := scheduleCore env sctx gctx
    scheduleFinish env c.1 c.2.1 c.2.2 gctx.AllJobsEvicted

/-- True when `Schedule` returns from the Step-1 round gate with `ok=false`
(the gang is new and `CheckRoundConstraints` reported a no-fit). -/
def roundGateFailed (env : Env) (gctx : GangSchedulingContext) : Bool :=
  !gctx.AllJobsEvicted &&
    (match env.roundRes with
     | .ok (rok, _) => !rok
     | .error _ => false)

/-! ## Job iteration facility (jobiteration.go) -/

/-- `InMemoryJobIterator` (jobiteration.go:21): a cursor over a pre-copied
slice of jobs.  Slice elements are the (non-nil) jobs enqueued upstream. -/
structure InMemoryJobIterator (α : Type) where
  i : Nat
  jobs : List α
deriving DecidableEq

/-- `NewInMemoryJobIterator` (jobiteration.go:26): copy the slice, cursor at
the start. -/
def NewInMemoryJobIterator (jobs : List α) : InMemoryJobIterator α :=
  { i := 0, jobs := jobs }

/-- `InMemoryJobIterator.Next` (jobiteration.go:36): `(nil, nil)` once the
cursor passes the end, else the next job; never an error. -/
def InMemoryJobIterator.Next (it : InMemoryJobIterator α) :
    (Option α × Option String) × InMemoryJobIterator α :=
  if h : it.i < it.jobs.length then
    ((some (it.jobs.get ⟨it.i, h⟩), none), { it with i := it.i + 1 })
  else ((none, none), it)

/-- The iterator state after `n` calls to `Next`. -/
def InMemoryJobIterator.advance (it : InMemoryJobIterator α) :
    Nat → InMemoryJobIterator α
  | 0 => it
  | n + 1 => InMemoryJobIterator.advance it.Next.2 n

/-- An abstract `JobIterator` as consumed by `MultiJobsIterator`: either an
arbitrary (deterministic, stateful) implementation of the `Next` contract,
represented by its response stream and a call counter, or a
`MultiJobsIterator` over a list of iterators.  The Go `MultiJobsIterator`
keeps a fixed slice and an index that only grows; the consumed prefix is
never read again, so it is represented by the remaining suffix. -/
inductive JobIterator (α : Type) where
  | base (resp : Nat → Option α × Option String) (k : Nat) : JobIterator α
  | multi (its : List (JobIterator α)) : JobIterator α

/-- `NewMultiJobsIterator` (jobiteration.go:200). -/
def NewMultiJobsIterator (its : List (JobIterator α)) : JobIterator α :=
  .multi its

/-- `MultiJobsIterator.Next` (jobiteration.go:206): past the end return
`(nil, nil)`; on a sub-iterator error return `(nil, err)` without advancing;
on a sub-iterator end advance and retry; else return the job. -/
def JobIterator.next : JobIterator α → (Option α × Option String) × JobIterator α
  | .base resp k => (resp k, .base resp (k + 1))
  | .multi [] => ((none, none), .multi [])
  | .multi (it :: rest) =>
    match it.next with
    | ((_v, some e), it2) => ((none, some e), .multi (it2 :: rest))
    | ((some v, none), it2) => ((some v, none), .multi (it2 :: rest))
    | ((none, none), _it2) => JobIterator.next (.multi rest)
termination_by it => sizeOf it
decreasing_by
  all_goals (simp <;> omega)

/-- The first `n` results of repeatedly calling `Next`. -/
def JobIterator.nexts (it : JobIterator α) : Nat → List (Option α × Option String)
  | 0 => []
  | n + 1 => it.next.1 :: JobIterator.nexts it.next.2 n

/-- `QueuedJobsIterator` (jobiteration.go:122) after its loader goroutine has
terminated (the loader always closes the channel on exit): the latched
error, the group context's error (set when the loader returned an error and
the error group cancelled the context), and the jobs still buffered in the
channel. -/
structure QueuedJobsIteratorState (α : Type) where
  err : Option String
  ctxErr : Option String
  buf : List α
deriving DecidableEq

/-- The channel arm of the `select` in `Next`: a buffered job if any,
otherwise the closed-channel zero value `(nil, nil)`. -/
def chanRecv (s : QueuedJobsIteratorState α) :
    (Option α × Option String) × QueuedJobsIteratorState α :=
  match s.buf with
  | j :: rest => ((some j, none), { s with buf := rest })
  | [] => ((none, none), s)

/-- `QueuedJobsIterator.Next` (jobiteration.go:146): return the latched
error if set; otherwise `select` between the done context and the channel.
When the context is done and the channel is also ready (it always is once
the loader has terminated), the Go runtime picks an arm pseudorandomly;
`choice = true` models picking the context arm. -/
def QueuedJobsIterator.Next (s : QueuedJobsIteratorState α) (choice : Bool) :
    (Option α × Option String) × QueuedJobsIteratorState α :=
  match s.err with
  | some e => ((none, some e), s)
  | none =>
    match s.ctxErr with
    | some e =>
      if choice then ((none, some e), { s with err := some e })
      else chanRecv s
    | none => chanRecv s

/-- `queuedJobsIteratorLoader` (jobiteration.go:166): fetch jobs in batches
of `batchSize`, pushing non-nil jobs to the channel; stop on the first
repository error.  Returns the jobs pushed and the loader's error.
`repo` models `GetExistingJobsByIds`, which may return nils (skipped). -/
def queuedJobsIteratorLoader (repo : List String → Except String (List (Option α)))
    (batchSize : Nat) : List String → List String → List α × Option String
  | _acc, [] => ([], none)
  | acc, x :: rest =>
    let acc := acc ++ [x]
    if acc.length = batchSize ∨ rest = [] then
      match repo acc with
      | .error e => ([], some e)
      | .ok jobs =>
        let sent := jobs.filterMap id
        let p := queuedJobsIteratorLoader repo batchSize [] rest
        (sent ++ p.1, p.2)
    else queuedJobsIteratorLoader repo batchSize acc rest

/-- Modelled from the spec: the error-group context's error once the loader
has returned a non-null error (the group cancels the context, and
`ctx.Err()` reports the cancellation). -/
def contextCanceled : String := "context canceled"

/-- The iterator state once the loader goroutine has terminated: the pushed
jobs are buffered, the channel is closed, and the context carries the
cancellation error iff the loader failed. -/
def queuedJobsIteratorAfterLoad
    (repo : List String → Except String (List (Option α)))
    (batchSize : Nat) (jobIds : List String) : QueuedJobsIteratorState α :=
  let p := queuedJobsIteratorLoader repo batchSize [] jobIds
  { err := none,
    ctxErr := (match p.2 with | some _ => some contextCanceled | none => none),
    buf := p.1 }

/-! ## Helper lemmas -/

theorem InMemoryJobIterator.next_atEnd (s : InMemoryJobIterator α)
    (h : ¬ s.i < s.jobs.length) : s.Next = ((none, none), s) := by
  simp [InMemoryJobIterator.Next, h]

theorem InMemoryJobIterator.advance_atEnd (s : InMemoryJobIterator α)
    (h : ¬ s.i < s.jobs.length) : ∀ m, s.advance m = s := by
  intro m
  induction m with
  | zero => rfl
  | succ n ih =>
    simp [InMemoryJobIterator.advance, InMemoryJobIterator.next_atEnd s h, ih]

theorem InMemoryJobIterator.next_job_none_iff (s : InMemoryJobIterator α) :
    s.Next.1.1 = none ↔ ¬ s.i < s.jobs.length := by
  unfold InMemoryJobIterator.Next
  split <;> simp_all

theorem InMemoryJobIterator.advance_add (s : InMemoryJobIterator α) (n m : Nat) :
    s.advance (n + m) = (s.advance n).advance m := by
  induction n generalizing s with
  | zero => rw [Nat.zero_add]; rfl
  | succ k ih =>
    have : k + 1 + m = (k + m) + 1 := by omega
    rw [this]
    simp only [InMemoryJobIterator.advance]
    exact ih _

/-! ## C10 -/

/-- C10: for every `InMemoryJobIterator`, `Next` never returns a non-null
error, and once `Next` has returned the end marker (no job, null error),
every subsequent call to `Next` also returns the end marker. -/
theorem C10_in_memory_iterator (it : InMemoryJobIterator α) (n : Nat) :
    (it.advance n).Next.1.2 = none ∧
    ((it.advance n).Next.1.1 = none →
      ∀ m, (it.advance (n + m)).Next.1.1 = none) := by
  constructor
  · unfold InMemoryJobIterator.Next
    split <;> rfl
  · intro h m
    have hend : ¬ (it.advance n).i < (it.advance n).jobs.length :=
      (InMemoryJobIterator.next_job_none_iff _).1 h
    rw [InMemoryJobIterator.advance_add,
      InMemoryJobIterator.advance_atEnd _ hend m]
    exact h

/-- Witness for C10 at a concrete two-element iterator: after two calls, the
end marker has been returned, and the next call returns it again. -/
theorem C10_witness :
    ((NewInMemoryJobIterator ([1, 2] : List Nat)).advance 2).Next.1.1 = none ∧
    ((NewInMemoryJobIterator ([1, 2] : List Nat)).advance (2 + 1)).Next.1.1 = none := by
  refine ⟨by rfl, ?_⟩
  exact (C10_in_memory_iterator (NewInMemoryJobIterator ([1, 2] : List Nat)) 2).2 (by rfl) 1

/-! ## C3 -/

/-- C3, amended: once `Next` has returned a non-null error, every subsequent
call returns the same error and leaves the iterator unchanged; and after the
loader has terminated with a fetch error (cancelled context, no latched
error yet), a `Next` call that selects the context arm returns a non-null
error.  (A `Next` call that selects the closed-channel arm instead may
return the end marker; see the counterexample.) -/
theorem C3_error_latching :
    (∀ (s : QueuedJobsIteratorState α) (c : Bool) (e : String),
      (QueuedJobsIterator.Next s c).1.2 = some e →
      ∀ c', QueuedJobsIterator.Next (QueuedJobsIterator.Next s c).2 c' =
        ((none, some e), (QueuedJobsIterator.Next s c).2)) ∧
    (∀ (buf : List α) (e : String),
      (QueuedJobsIterator.Next
        { err := none, ctxErr := some e, buf := buf } true).1.2 = some e) := by
  constructor
  · intro s c e h c'
    unfold QueuedJobsIterator.Next at h ⊢
    rcases hs : s.err with _ | e0
    · rcases hc : s.ctxErr with _ | e1
      · simp only [hs, hc] at h ⊢
        unfold chanRecv at h ⊢
        rcases hb : s.buf with _ | ⟨j, rest⟩ <;> simp [hb] at h ⊢
      · simp only [hs, hc] at h ⊢
        by_cases hch : c
        · simp only [hch, if_true] at h ⊢
          simp at h
          subst h
          simp
        · simp only [hch, if_false] at h ⊢
          unfold chanRecv at h ⊢
          rcases hb : s.buf with _ | ⟨j, rest⟩ <;> simp [hb] at h ⊢
    · simp only [hs] at h ⊢
      simp at h
      subst h
      simp [hs]
  · intro buf e
    rfl

/-- A repository whose fetch always fails. -/
def repoC3 : List String → Except String (List (Option Nat)) :=
  fun _ => .error ("db down")

/-- Counterexample to C3 as stated: the loader's fetch returns a non-null
error, yet a subsequent `Next` that selects the (already closed) channel arm
of the `select` returns the normal end-of-sequence marker `(nil, nil)`. -/
theorem C3_counterexample :
    (queuedJobsIteratorLoader repoC3 16 [] [("j1")]).2 = some ("db down") ∧
    (QueuedJobsIterator.Next (queuedJobsIteratorAfterLoad repoC3 16 [("j1")])
      false).1 = (none, none) := by
  exact ⟨rfl, rfl⟩

/-- Witness for C3 at a concrete state: after a loader error, the context
arm returns the cancellation error, and the error then latches. -/
theorem C3_witness :
    (QueuedJobsIterator.Next
      ({ err := none, ctxErr := some contextCanceled, buf := [] } :
        QueuedJobsIteratorState Nat) true).1.2 = some contextCanceled ∧
    QueuedJobsIterator.Next
      ((QueuedJobsIterator.Next
        ({ err := none, ctxErr := some contextCanceled, buf := [] } :
          QueuedJobsIteratorState Nat) true).2) false =
      ((none, some contextCanceled),
        (QueuedJobsIterator.Next
          ({ err := none, ctxErr := some contextCanceled, buf := [] } :
            QueuedJobsIteratorState Nat) true).2) := by
  refine ⟨C3_error_latching.2 [] contextCanceled, ?_⟩
  exact C3_error_latching.1 _ true contextCanceled (by rfl) false

/-! ## C4 -/

theorem clearNodeBindings_nodeId (j : JobSchedulingContext) (p : PodSchedulingContext)
    (h : (clearNodeBindings j).PodSchedulingContext = some p) : p.NodeId = "" := by
  unfold clearNodeBindings at h
  rcases hq : j.PodSchedulingContext with _ | q
  · rw [hq] at h; simp at h
  · rw [hq] at h
    simp only [Option.map_some'] at h
    have h2 : ({ q with NodeId := "" } : PodSchedulingContext) = p := by
      injection h
    rw [← h2]

/-- C4: when a single transactional attempt's `ScheduleManyWithTxn` returns
`ok=false` with no error, the transaction is aborted (not committed),
`NodeId` is cleared on every JSC's PodSchedulingContext, and the returned
reason is the minimum-cardinality message when the gang has more than one
member and the no-fit message otherwise. -/
theorem C4_failed_attempt (env : Env) (attempts commits aborts : Nat)
    (gctx : GangSchedulingContext) (f : Nat → Option PodSchedulingContext)
    (h : env.scheduleMany attempts gctx.JobSchedulingContexts = .ok (false, f)) :
    (tryScheduleGang env attempts commits aborts gctx).res =
      .ok (false,
        if gctx.Cardinality > 1 then
          "unable to schedule gang since minimum cardinality not met"
        else "job does not fit on any node") ∧
    (tryScheduleGang env attempts commits aborts gctx).commits = commits ∧
    (tryScheduleGang env attempts commits aborts gctx).aborts = aborts + 1 ∧
    ∀ j ∈ (tryScheduleGang env attempts commits aborts gctx).gctx.JobSchedulingContexts,
      ∀ p, j.PodSchedulingContext = some p → p.NodeId = "" := by
  have e1 : tryScheduleGang env attempts commits aborts gctx =
      { res := .ok (false,
          if gctx.Cardinality > 1 then
            "unable to schedule gang since minimum cardinality not met"
          else "job does not fit on any node"),
        gctx := { gctx with JobSchedulingContexts :=
          ((applyPodSchedulingContexts gctx.JobSchedulingContexts f 0).map
            clearNodeBindings) },
        attempts := attempts + 1, commits := commits, aborts := aborts + 1 } := by
    unfold tryScheduleGang tryScheduleGangWithTxn
    rw [h]
    rfl
  rw [e1]
  refine ⟨rfl, rfl, rfl, ?_⟩
  intro j hj p hp
  simp only [List.mem_map] at hj
  obtain ⟨j', _, rfl⟩ := hj
  exact clearNodeBindings_nodeId j' p hp

def envC4 : Env :=
  { roundRes := .ok (true, ""), gangRes := .ok (true, ""),
    IndexedNodeLabelValues := fun _ => none,
    scheduleMany := fun _ _ => .ok (false, fun _ =>
      some { NodeId := "n1", ScheduledAtPriority := 3 }),
    MinPriority := 0, fallbackKey := fun _ => "",
    skipUnsuccessfulSchedulingKeyCheck := false }

def jsc1 : JobSchedulingContext :=
  { JobId := "j1", SchedulingKey := some ("k1"),
    PodRequirements := { NodeSelector := [] },
    PodSchedulingContext := none, ShouldFail := false,
    UnschedulableReason := "" }

def jsc2 : JobSchedulingContext :=
  { jsc1 with JobId := "j2", SchedulingKey := some ("k2"), ShouldFail := true }

def gctxC4 : GangSchedulingContext :=
  { Queue := "q1", JobSchedulingContexts := [jsc1, jsc2],
    NodeUniformityLabel := "", AllJobsEvicted := false }

/-- Witness for C4 at a concrete two-job gang whose attempt fails. -/
theorem C4_witness :
    (tryScheduleGang envC4 0 0 0 gctxC4).res =
      .ok (false,
        if gctxC4.Cardinality > 1 then
          "unable to schedule gang since minimum cardinality not met"
        else "job does not fit on any node") ∧
    (tryScheduleGang envC4 0 0 0 gctxC4).commits = 0 ∧
    (tryScheduleGang envC4 0 0 0 gctxC4).aborts = 0 + 1 := by
  have h := C4_failed_attempt envC4 0 0 0 gctxC4
    (fun _ => some { NodeId := "n1", ScheduledAtPriority := 3 }) (by rfl)
  exact ⟨h.1, h.2.1, h.2.2.1⟩

/-! ## C9: chaining associativity via flattening -/

/-- A primitive iterator in flattened form: its response stream and call
counter. -/
structure BaseIt (α : Type) where
  resp : Nat → Option α × Option String
  k : Nat

/-- Flatten a (possibly nested) chain of iterators into the list of primitive
iterators still to be drained, in drain order. -/
def toFlat : JobIterator α → List (BaseIt α)
  | .base resp k => [{ resp := resp, k := k }]
  | .multi [] => []
  | .multi (it :: rest) => toFlat it ++ toFlat (.multi rest)
termination_by it => sizeOf it
decreasing_by
  all_goals (simp <;> omega)

/-- `Next` on the flattened form: drain the first primitive iterator,
dropping it permanently when it reports end-of-sequence. -/
def flatNext : List (BaseIt α) → (Option α × Option String) × List (BaseIt α)
  | [] => ((none, none), [])
  | b :: rest =>
    match b.resp b.k with
    | (_v, some e) => ((none, some e), { resp := b.resp, k := b.k + 1 } :: rest)
    | (some v, none) => ((some v, none), { resp := b.resp, k := b.k + 1 } :: rest)
    | (none, none) => flatNext rest

/-- The first `n` results of the flattened semantics. -/
def flatNexts (l : List (BaseIt α)) : Nat → List (Option α × Option String)
  | 0 => []
  | n + 1 => (flatNext l).1 :: flatNexts (flatNext l).2 n

theorem flatNext_append_end (xs ys : List (BaseIt α))
    (h : (flatNext xs).1 = (none, none)) :
    flatNext (xs ++ ys) = flatNext ys := by
  induction xs with
  | nil => rfl
  | cons b rest ih =>
    rcases hr : b.resp b.k with ⟨v, e⟩
    rcases e with _ | e0
    · rcases v with _ | v0
      · simp only [flatNext, hr] at h ⊢
        exact ih h
      · simp [flatNext, hr] at h
    · simp [flatNext, hr] at h

theorem flatNext_append_mid (xs ys : List (BaseIt α))
    (h : ¬ (flatNext xs).1 = (none, none)) :
    flatNext (xs ++ ys) = ((flatNext xs).1, (flatNext xs).2 ++ ys) := by
  induction xs with
  | nil => simp [flatNext] at h
  | cons b rest ih =>
    rcases hr : b.resp b.k with ⟨v, e⟩
    rcases e with _ | e0
    · rcases v with _ | v0
      · simp only [flatNext, hr] at h ⊢
        exact ih h
      · simp [flatNext, hr]
    · simp [flatNext, hr]

theorem next_multi_shape (its : List (JobIterator α)) :
    ∃ its', (JobIterator.next (.multi its)).2 = JobIterator.multi its' := by
  induction its with
  | nil => exact ⟨[], by simp [JobIterator.next]⟩
  | cons hd rest ih =>
    rcases hnext : hd.next with ⟨⟨v, e⟩, hd2⟩
    rcases e with _ | e0
    · rcases v with _ | v0
      · simp only [JobIterator.next, hnext]
        exact ih
      · exact ⟨hd2 :: rest, by simp [JobIterator.next, hnext]⟩
    · exact ⟨hd2 :: rest, by simp [JobIterator.next, hnext]⟩

theorem next_multi_err_job_none (its : List (JobIterator α)) (e : String)
    (h : (JobIterator.next (.multi its)).1.2 = some e) :
    (JobIterator.next (.multi its)).1.1 = none := by
  induction its with
  | nil => simp [JobIterator.next] at h
  | cons hd rest ih =>
    rcases hnext : hd.next with ⟨⟨v, e'⟩, hd2⟩
    rcases e' with _ | e0
    · rcases v with _ | v0
      · simp only [JobIterator.next, hnext] at h ⊢
        exact ih h
      · simp [JobIterator.next, hnext] at h
    · simp [JobIterator.next, hnext]

theorem multiNext_flat_aux (n : Nat) :
    ∀ (its : List (JobIterator α)), sizeOf its ≤ n →
    (JobIterator.next (.multi its)).1 = (flatNext (toFlat (.multi its))).1 ∧
    toFlat (JobIterator.next (.multi its)).2 = (flatNext (toFlat (.multi its))).2 := by
  induction n with
  | zero =>
    intro its h
    rcases its with _ | ⟨hd, rest⟩
    · constructor <;> simp [JobIterator.next, toFlat, flatNext]
    · simp at h
  | succ n ih =>
    intro its hsz
    rcases its with _ | ⟨hd, rest⟩
    · constructor <;> simp [JobIterator.next, toFlat, flatNext]
    · have hflat : toFlat (JobIterator.multi (hd :: rest)) =
          toFlat hd ++ toFlat (JobIterator.multi rest) := by
        simp [toFlat]
      have hszrest : sizeOf rest ≤ n := by
        simp at hsz
        omega
      rcases hd with ⟨resp, k⟩ | inner
      · -- primitive head
        have hbase : toFlat (JobIterator.base resp k) =
            [({ resp := resp, k := k } : BaseIt α)] := by
          simp [toFlat]
        rcases hr : resp k with ⟨v, e⟩
        rcases e with _ | e0
        · rcases v with _ | v0
          · -- head reports end: popped on both sides
            have lhs : JobIterator.next (.multi (JobIterator.base resp k :: rest)) =
                JobIterator.next (.multi rest) := by
              simp [JobIterator.next, hr]
            have rhs : flatNext (toFlat (JobIterator.multi (JobIterator.base resp k :: rest))) =
                flatNext (toFlat (JobIterator.multi rest)) := by
              rw [hflat, hbase, List.cons_append, List.nil_append]
              simp only [flatNext, hr]
            rw [lhs, rhs]
            exact ih rest hszrest
          · -- head yields a job
            have lhs : JobIterator.next (.multi (JobIterator.base resp k :: rest)) =
                ((some v0, none), .multi (.base resp (k + 1) :: rest)) := by
              simp [JobIterator.next, hr]
            have rhs : flatNext (toFlat (JobIterator.multi (JobIterator.base resp k :: rest))) =
                ((some v0, none),
                  ({ resp := resp, k := k + 1 } : BaseIt α) :: toFlat (JobIterator.multi rest)) := by
              rw [hflat, hbase, List.cons_append, List.nil_append]
              simp [flatNext, hr]
            rw [lhs, rhs]
            constructor
            · rfl
            · simp [toFlat]
        · -- head yields an error
          have lhs : JobIterator.next (.multi (JobIterator.base resp k :: rest)) =
              ((none, some e0), .multi (.base resp (k + 1) :: rest)) := by
            simp [JobIterator.next, hr]
          have rhs : flatNext (toFlat (JobIterator.multi (JobIterator.base resp k :: rest))) =
              ((none, some e0),
                ({ resp := resp, k := k + 1 } : BaseIt α) :: toFlat (JobIterator.multi rest)) := by
            rw [hflat, hbase, List.cons_append, List.nil_append]
            simp [flatNext, hr]
          rw [lhs, rhs]
          constructor
          · rfl
          · simp [toFlat]
      · -- nested multi head
        have hszin : sizeOf inner ≤ n := by
          simp at hsz
          omega
        have ihin := ih inner hszin
        rcases hnext : (JobIterator.multi inner).next with ⟨⟨v, e⟩, hd2⟩
        have ih1 : (v, e) = (flatNext (toFlat (JobIterator.multi inner))).1 := by
          rw [← ihin.1, hnext]
        have ih2 : toFlat hd2 = (flatNext (toFlat (JobIterator.multi inner))).2 := by
          rw [← ihin.2, hnext]
        rcases e with _ | e0
        · rcases v with _ | v0
          · -- nested head reports end
            have lhs : JobIterator.next (.multi (JobIterator.multi inner :: rest)) =
                JobIterator.next (.multi rest) := by
              simp only [JobIterator.next, hnext]
            have rhs : flatNext (toFlat (JobIterator.multi (JobIterator.multi inner :: rest))) =
                flatNext (toFlat (JobIterator.multi rest)) := by
              rw [hflat]
              exact flatNext_append_end _ _ ih1.symm
            rw [lhs, rhs]
            exact ih rest hszrest
          · -- nested head yields a job
            have hne : ¬ (flatNext (toFlat (JobIterator.multi inner))).1 = (none, none) := by
              rw [← ih1]
              simp
            have happ := flatNext_append_mid (toFlat (JobIterator.multi inner))
              (toFlat (JobIterator.multi rest)) hne
            have lhs : JobIterator.next (.multi (JobIterator.multi inner :: rest)) =
                ((some v0, none), .multi (hd2 :: rest)) := by
              simp [JobIterator.next, hnext]
            rw [lhs, hflat, happ, ← ih1, ← ih2]
            constructor
            · rfl
            · simp [toFlat]
        · -- nested head yields an error
          have hvnone : v = none := by
            have h2 := next_multi_err_job_none inner e0 (by rw [hnext])
            rw [hnext] at h2
            exact h2
          subst hvnone
          have hne : ¬ (flatNext (toFlat (JobIterator.multi inner))).1 = (none, none) := by
            rw [← ih1]
            simp
          have happ := flatNext_append_mid (toFlat (JobIterator.multi inner))
            (toFlat (JobIterator.multi rest)) hne
          have lhs : JobIterator.next (.multi (JobIterator.multi inner :: rest)) =
              ((none, some e0), .multi (hd2 :: rest)) := by
            simp [JobIterator.next, hnext]
          rw [lhs, hflat, happ, ← ih1, ← ih2]
          constructor
          · rfl
          · simp [toFlat]

theorem multiNext_flat (its : List (JobIterator α)) :
    (JobIterator.next (.multi its)).1 = (flatNext (toFlat (.multi its))).1 ∧
    toFlat (JobIterator.next (.multi its)).2 = (flatNext (toFlat (.multi its))).2 :=
  multiNext_flat_aux (sizeOf its) its le_rfl

theorem nexts_eq_flatNexts (n : Nat) :
    ∀ (its : List (JobIterator α)),
    JobIterator.nexts (.multi its) n = flatNexts (toFlat (.multi its)) n := by
  induction n with
  | zero => intro its; rfl
  | succ n ih =>
    intro its
    obtain ⟨its', hshape⟩ := next_multi_shape its
    have h1 := (multiNext_flat its).1
    have h2 := (multiNext_flat its).2
    rw [hshape] at h2
    simp only [JobIterator.nexts, flatNexts]
    rw [h1, hshape, ← h2, ih its']

/-- C9: chaining job iterators is associative — for all iterators `a`, `b`,
`c` and every `n`, the first `n` `Next` results (jobs, ends and errors, in
order) of `NewMultiJobsIterator [a, NewMultiJobsIterator [b, c]]` equal
those of `NewMultiJobsIterator [NewMultiJobsIterator [a, b], c]`. -/
theorem C9_chaining_associative (a b c : JobIterator α) (n : Nat) :
    (NewMultiJobsIterator [a, NewMultiJobsIterator [b, c]]).nexts n =
    (NewMultiJobsIterator [NewMultiJobsIterator [a, b], c]).nexts n := by
  unfold NewMultiJobsIterator
  rw [nexts_eq_flatNexts, nexts_eq_flatNexts]
  have hfl : toFlat (JobIterator.multi [a, JobIterator.multi [b, c]]) =
      toFlat (JobIterator.multi [JobIterator.multi [a, b], c]) := by
    simp [toFlat, List.append_assoc]
  rw [hfl]

/-! ## Schedule-level helper lemmas -/

theorem map_jobId_eq (f : JobSchedulingContext → JobSchedulingContext)
    (hf : ∀ j, (f j).JobId = j.JobId) (l : List JobSchedulingContext) :
    (l.map f).map (fun j => j.JobId) = l.map (fun j => j.JobId) := by
  induction l with
  | nil => rfl
  | cons j rest ih => simp [hf, ih]

theorem applyPSC_jobIds (f : Nat → Option PodSchedulingContext) :
    ∀ (l : List JobSchedulingContext) (k : Nat),
    (applyPodSchedulingContexts l f k).map (fun j => j.JobId) =
      l.map (fun j => j.JobId) := by
  intro l
  induction l with
  | nil => intro k; rfl
  | cons j rest ih =>
    intro k
    simp [applyPodSchedulingContexts, ih]

/-- Shape facts about a gang context preserved by every JSC mutation the
scheduler performs. -/
def sameShape (g g' : GangSchedulingContext) : Prop :=
  g'.Queue = g.Queue ∧ g'.NodeUniformityLabel = g.NodeUniformityLabel ∧
  g'.AllJobsEvicted = g.AllJobsEvicted ∧ gangJobIds g' = gangJobIds g

theorem sameShape_refl (g : GangSchedulingContext) : sameShape g g :=
  ⟨rfl, rfl, rfl, rfl⟩

theorem sameShape_trans {g1 g2 g3 : GangSchedulingContext}
    (h12 : sameShape g1 g2) (h23 : sameShape g2 g3) : sameShape g1 g3 := by
  obtain ⟨a1, b1, c1, d1⟩ := h12
  obtain ⟨a2, b2, c2, d2⟩ := h23
  exact ⟨a2.trans a1, b2.trans b1, c2.trans c1, d2.trans d1⟩

theorem sameShape_cardinality {g g' : GangSchedulingContext}
    (h : sameShape g g') : g'.Cardinality = g.Cardinality := by
  have := h.2.2.2
  unfold gangJobIds at this
  have h2 := congrArg List.length this
  simpa [GangSchedulingContext.Cardinality] using h2

theorem gangJobIds_with (g : GangSchedulingContext)
    (l : List JobSchedulingContext) :
    gangJobIds { g with JobSchedulingContexts := l } =
      l.map (fun j => j.JobId) := rfl

theorem map_clear_jobIds (l : List JobSchedulingContext) :
    (l.map clearNodeBindings).map (fun j => j.JobId) =
      l.map (fun j => j.JobId) :=
  map_jobId_eq clearNodeBindings (fun _ => rfl) l

theorem map_shouldfail_jobIds (l : List JobSchedulingContext) :
    (l.map (fun j => if j.ShouldFail then
        { clearNodeBindings j with
            UnschedulableReason := "job does not fit on any node" }
      else j)).map (fun j => j.JobId) = l.map (fun j => j.JobId) :=
  map_jobId_eq _ (fun j => by
    by_cases h : j.ShouldFail <;> simp [h, clearNodeBindings]) l

theorem sameShape_addNodeSelector (g : GangSchedulingContext) (k v : String) :
    sameShape g (addNodeSelectorToGctx g k v) := by
  refine ⟨rfl, rfl, rfl, ?_⟩
  unfold addNodeSelectorToGctx
  rw [gangJobIds_with]
  unfold gangJobIds
  apply map_jobId_eq
  intro j
  rfl

theorem tryWithTxn_shape (env : Env) (attempt : Nat)
    (gctx : GangSchedulingContext) (t : TxnResult)
    (h : tryScheduleGangWithTxn env attempt gctx = .ok t) :
    sameShape gctx t.gctx := by
  unfold tryScheduleGangWithTxn at h
  rcases hsm : env.scheduleMany attempt gctx.JobSchedulingContexts with e | ⟨ok, f⟩
  · rw [hsm] at h
    exact absurd h (by simp)
  · cases ok
    · rw [hsm] at h
      injection h with h2
      subst h2
      refine ⟨rfl, rfl, rfl, ?_⟩
      rw [gangJobIds_with, map_clear_jobIds, applyPSC_jobIds]
      rfl
    · rw [hsm] at h
      injection h with h2
      subst h2
      refine ⟨rfl, rfl, rfl, ?_⟩
      rw [gangJobIds_with, map_shouldfail_jobIds, applyPSC_jobIds]
      rfl

theorem tryGang_shape (env : Env) (a c ab : Nat) (gctx : GangSchedulingContext) :
    sameShape gctx (tryScheduleGang env a c ab gctx).gctx := by
  unfold tryScheduleGang
  rcases htxn : tryScheduleGangWithTxn env a gctx with e | ⟨tok, treason, tgctx⟩
  · exact sameShape_refl gctx
  · have hs := tryWithTxn_shape env a gctx ⟨tok, treason, tgctx⟩ htxn
    cases tok
    · exact hs
    · exact hs

/-- Every `ShouldFail` member has been recorded as failed: empty bound node
and the no-fit reason. -/
def shouldFailHandled (g : GangSchedulingContext) : Prop :=
  ∀ j ∈ g.JobSchedulingContexts, j.ShouldFail = true →
    (∀ p, j.PodSchedulingContext = some p → p.NodeId = "") ∧
    j.UnschedulableReason = "job does not fit on any node"

theorem txn_ok_handled (env : Env) (attempt : Nat)
    (gctx : GangSchedulingContext) (treason : String)
    (tgctx : GangSchedulingContext)
    (h : tryScheduleGangWithTxn env attempt gctx = .ok ⟨true, treason, tgctx⟩) :
    treason = "" ∧ shouldFailHandled tgctx := by
  unfold tryScheduleGangWithTxn at h
  rcases hsm : env.scheduleMany attempt gctx.JobSchedulingContexts with e | ⟨ok, f⟩
  · rw [hsm] at h
    exact absurd h (by simp)
  · cases ok
    · rw [hsm] at h
      simp at h
    · rw [hsm] at h
      simp at h
      obtain ⟨h1, h2⟩ := h
      subst h1
      subst h2
      refine ⟨rfl, ?_⟩
      intro j hj hsf
      simp only [List.mem_map] at hj
      obtain ⟨j', hj', rfl⟩ := hj
      by_cases hsf' : j'.ShouldFail
      · rw [if_pos (by simpa using hsf')]
        refine ⟨?_, rfl⟩
        intro p hp
        exact clearNodeBindings_nodeId j' p hp
      · rw [if_neg (by simpa using hsf')] at hsf
        exact absurd hsf (by simpa using hsf')

theorem tryGang_cases (env : Env) (a c ab : Nat) (gctx : GangSchedulingContext) :
    (∀ r, (tryScheduleGang env a c ab gctx).res = .ok (true, r) →
      r = "" ∧ shouldFailHandled (tryScheduleGang env a c ab gctx).gctx) ∧
    (∀ r, (tryScheduleGang env a c ab gctx).res = .ok (false, r) →
      (tryScheduleGang env a c ab gctx).commits = c) := by
  unfold tryScheduleGang
  rcases htxn : tryScheduleGangWithTxn env a gctx with e | ⟨tok, treason, tgctx⟩
  · constructor
    · intro r hr
      exact absurd hr (by simp)
    · intro r hr
      exact absurd hr (by simp)
  · cases tok
    · constructor
      · intro r hr
        exact absurd hr (by simp)
      · intro r hr
        rfl
    · constructor
      · intro r hr
        have hr' : treason = r := by
          simp at hr
          exact hr
        subst hr'
        obtain ⟨h1, h2⟩ := txn_ok_handled env a gctx treason tgctx htxn
        exact ⟨h1, h2⟩
      · intro r hr
        exact absurd hr (by simp)

/-- The uniformity-loop success predicate of claim C5: a recorded attempt
that was `ok` with mean scheduled-at-priority equal to `MinPriority`. -/
def minPred (env : Env) (a : AttemptRecord) : Bool :=
  a.ok && decide (a.mean = some (minPriorityF env))

theorem find?_append_none {p : AttemptRecord → Bool} (l1 l2 : List AttemptRecord)
    (h : l1.find? p = none) : (l1 ++ l2).find? p = l2.find? p := by
  induction l1 with
  | nil => rfl
  | cons a rest ih =>
    rcases hpa : p a with _ | _
    · rw [List.cons_append]
      rw [List.find?_cons_of_neg _ (by simp [hpa])]
      rw [List.find?_cons_of_neg _ (by simp [hpa])] at h
      exact ih h
    · rw [List.find?_cons_of_pos _ (by simp [hpa])] at h
      exact absurd h (by simp)

theorem loop_invariants (env : Env) (label : String) (total : Nat) :
    ∀ (values : List String) (i : Nat) (bv : String) (mm : Option ℚ)
      (gctx : GangSchedulingContext) (a c ab : Nat) (tr : List AttemptRecord),
    sameShape gctx
      (uniformitySearchLoop env label total values i bv mm gctx a c ab tr).gctx ∧
    (∀ r, (uniformitySearchLoop env label total values i bv mm gctx a c ab tr).res =
        .ok (false, r) →
      (uniformitySearchLoop env label total values i bv mm gctx a c ab tr).commits = c) ∧
    (∀ r, (uniformitySearchLoop env label total values i bv mm gctx a c ab tr).res =
        .ok (true, r) →
      r = "" ∧ shouldFailHandled
        (uniformitySearchLoop env label total values i bv mm gctx a c ab tr).gctx) ∧
    (∀ a0, tr.find? (minPred env) = none →
      (uniformitySearchLoop env label total values i bv mm gctx a c ab tr).trace.find?
          (minPred env) = some a0 →
      (uniformitySearchLoop env label total values i bv mm gctx a c ab tr).res =
          .ok (true, "") ∧
      (uniformitySearchLoop env label total values i bv mm gctx a c ab tr).committedValue =
          some a0.value) := by
  intro values
  induction values with
  | nil =>
    intro i bv mm gctx a c ab tr
    by_cases hbv : bv = ""
    · have heq : uniformitySearchLoop env label total [] i bv mm gctx a c ab tr =
          { res := .ok (false, "at least one job in the gang does not fit on any node"),
            gctx := gctx, attempts := a, commits := c, aborts := ab,
            committedValue := none, trace := tr } := by
        simp only [uniformitySearchLoop, if_pos hbv]
      rw [heq]
      refine ⟨sameShape_refl gctx, ?_, ?_, ?_⟩
      · intro r hr
        rfl
      · intro r hr
        exact absurd hr (by simp)
      · intro a0 hnone hfind
        rw [hnone] at hfind
        exact absurd hfind (by simp)
    · have heq : uniformitySearchLoop env label total [] i bv mm gctx a c ab tr =
          { res := (tryScheduleGang env a c ab (addNodeSelectorToGctx gctx label bv)).res,
            gctx := (tryScheduleGang env a c ab (addNodeSelectorToGctx gctx label bv)).gctx,
            attempts := (tryScheduleGang env a c ab (addNodeSelectorToGctx gctx label bv)).attempts,
            commits := (tryScheduleGang env a c ab (addNodeSelectorToGctx gctx label bv)).commits,
            aborts := (tryScheduleGang env a c ab (addNodeSelectorToGctx gctx label bv)).aborts,
            committedValue :=
              (match (tryScheduleGang env a c ab (addNodeSelectorToGctx gctx label bv)).res with
               | .ok (true, _) => some bv
               | _ => none),
            trace := tr } := by
        simp only [uniformitySearchLoop, if_neg hbv]
      rw [heq]
      refine ⟨?_, ?_, ?_, ?_⟩
      · exact sameShape_trans (sameShape_addNodeSelector gctx label bv)
          (tryGang_shape env a c ab (addNodeSelectorToGctx gctx label bv))
      · intro r hr
        exact (tryGang_cases env a c ab (addNodeSelectorToGctx gctx label bv)).2 r hr
      · intro r hr
        exact (tryGang_cases env a c ab (addNodeSelectorToGctx gctx label bv)).1 r hr
      · intro a0 hnone hfind
        rw [hnone] at hfind
        exact absurd hfind (by simp)
  | cons v rest ih =>
    intro i bv mm gctx a c ab tr
    by_cases hv : v = ""
    · have heq : uniformitySearchLoop env label total (v :: rest) i bv mm gctx a c ab tr =
          uniformitySearchLoop env label total rest (i + 1) bv mm gctx a c ab tr := by
        simp only [uniformitySearchLoop, if_pos hv]
      rw [heq]
      exact ih (i + 1) bv mm gctx a c ab tr
    · rcases htxn : tryScheduleGangWithTxn env a (addNodeSelectorToGctx gctx label v)
        with e | ⟨tok, treason, tgctx⟩
      · have heq : uniformitySearchLoop env label total (v :: rest) i bv mm gctx a c ab tr =
            { res := .error e, gctx := addNodeSelectorToGctx gctx label v,
              attempts := a + 1, commits := c, aborts := ab + 1,
              committedValue := none, trace := tr } := by
          simp only [uniformitySearchLoop, if_neg hv, htxn]
        rw [heq]
        refine ⟨sameShape_addNodeSelector gctx label v, ?_, ?_, ?_⟩
        · intro r hr
          exact absurd hr (by simp)
        · intro r hr
          exact absurd hr (by simp)
        · intro a0 hnone hfind
          rw [hnone] at hfind
          exact absurd hfind (by simp)
      · have hshape0 : sameShape gctx tgctx :=
          sameShape_trans (sameShape_addNodeSelector gctx label v)
            (tryWithTxn_shape env a (addNodeSelectorToGctx gctx label v) _ htxn)
        cases tok
        · -- ScheduleManyWithTxn reported no fit: abort and continue
          have heq : uniformitySearchLoop env label total (v :: rest) i bv mm gctx a c ab tr =
              uniformitySearchLoop env label total rest (i + 1) bv mm tgctx (a + 1) c (ab + 1)
                (tr ++ [{ value := v, ok := false, mean := none }]) := by
            simp only [uniformitySearchLoop, if_neg hv, htxn]
            rw [if_neg (by simp)]
          rw [heq]
          have hrec := ih (i + 1) bv mm tgctx (a + 1) c (ab + 1)
            (tr ++ [{ value := v, ok := false, mean := none }])
          refine ⟨sameShape_trans hshape0 hrec.1, hrec.2.1, hrec.2.2.1, ?_⟩
          intro a0 h0 hfind
          refine hrec.2.2.2 a0 ?_ hfind
          rw [find?_append_none _ _ h0]
          simp [List.find?, minPred]
        · -- ScheduleManyWithTxn succeeded
          rcases hm : meanScheduledAtPriorityFromGctx tgctx with ⟨m, mok⟩
          cases mok
          · -- mean not computable: abort and continue
            have heq : uniformitySearchLoop env label total (v :: rest) i bv mm gctx a c ab tr =
                uniformitySearchLoop env label total rest (i + 1) bv mm tgctx (a + 1) c (ab + 1)
                  (tr ++ [{ value := v, ok := true, mean := none }]) := by
              simp only [uniformitySearchLoop, if_neg hv, htxn, hm]
              rw [if_pos trivial]
              rw [if_pos (by simp)]
            rw [heq]
            have hrec := ih (i + 1) bv mm tgctx (a + 1) c (ab + 1)
              (tr ++ [{ value := v, ok := true, mean := none }])
            refine ⟨sameShape_trans hshape0 hrec.1, hrec.2.1, hrec.2.2.1, ?_⟩
            intro a0 h0 hfind
            refine hrec.2.2.2 a0 ?_ hfind
            rw [find?_append_none _ _ h0]
            simp [List.find?, minPred]
          · by_cases hmp : m = some (minPriorityF env)
            · -- best possible mean: commit and return
              have heq : uniformitySearchLoop env label total (v :: rest) i bv mm gctx a c ab tr =
                  { res := .ok (true, ""), gctx := tgctx, attempts := a + 1,
                    commits := c + 1, aborts := ab, committedValue := some v,
                    trace := tr ++ [{ value := v, ok := true, mean := m }] } := by
                simp only [uniformitySearchLoop, if_neg hv, htxn, hm]
                rw [if_pos trivial]
                rw [if_neg (by simp)]
                rw [if_pos hmp]
              rw [heq]
              refine ⟨hshape0, ?_, ?_, ?_⟩
              · intro r hr
                exact absurd hr (by simp)
              · intro r hr
                have hr' : ("" : String) = r := by
                  simpa using hr
                subst hr'
                exact ⟨rfl, (txn_ok_handled env a _ treason tgctx htxn).2⟩
              · intro a0 h0 hfind
                rw [find?_append_none _ _ h0,
                  List.find?_cons_of_pos _ (by simp [minPred, hmp])] at hfind
                have h3 : ({ value := v, ok := true, mean := m } :
                    AttemptRecord) = a0 := by
                  simpa using hfind
                subst h3
                exact ⟨rfl, rfl⟩
            · have hpredf : (minPred env { value := v, ok := true, mean := m }) = false := by
                simp [minPred, hmp]
              have hnone1 : ∀ (t0 : List AttemptRecord), t0.find? (minPred env) = none →
                  (t0 ++ [({ value := v, ok := true, mean := m } : AttemptRecord)]).find?
                    (minPred env) = none := by
                intro t0 h0
                rw [find?_append_none _ _ h0]
                rw [List.find?_cons_of_neg _ (by simp [hpredf])]
                rfl
              by_cases htie : bv = "" ∨ floatLe m mm = true
              · by_cases hlast : i + 1 = total
                · -- last candidate with minimal mean: commit and return
                  have heq : uniformitySearchLoop env label total (v :: rest) i bv mm gctx a c ab tr =
                      { res := .ok (true, ""), gctx := tgctx, attempts := a + 1,
                        commits := c + 1, aborts := ab, committedValue := some v,
                        trace := tr ++ [{ value := v, ok := true, mean := m }] } := by
                    simp only [uniformitySearchLoop, if_neg hv, htxn, hm]
                    rw [if_pos trivial]
                    rw [if_neg (by simp)]
                    rw [if_neg hmp]
                    rw [if_pos htie]
                    rw [if_pos hlast]
                  rw [heq]
                  refine ⟨hshape0, ?_, ?_, ?_⟩
                  · intro r hr
                    exact absurd hr (by simp)
                  · intro r hr
                    have hr' : ("" : String) = r := by
                      simpa using hr
                    subst hr'
                    exact ⟨rfl, (txn_ok_handled env a _ treason tgctx htxn).2⟩
                  · intro a0 h0 hfind
                    rw [hnone1 tr h0] at hfind
                    exact absurd hfind (by simp)
                · have heq : uniformitySearchLoop env label total (v :: rest) i bv mm gctx a c ab tr =
                      uniformitySearchLoop env label total rest (i + 1) v m tgctx (a + 1) c (ab + 1)
                        (tr ++ [{ value := v, ok := true, mean := m }]) := by
                    simp only [uniformitySearchLoop, if_neg hv, htxn, hm]
                    rw [if_pos trivial]
                    rw [if_neg (by simp)]
                    rw [if_neg hmp]
                    rw [if_pos htie]
                    rw [if_neg hlast]
                  rw [heq]
                  have hrec := ih (i + 1) v m tgctx (a + 1) c (ab + 1)
                    (tr ++ [{ value := v, ok := true, mean := m }])
                  refine ⟨sameShape_trans hshape0 hrec.1, hrec.2.1, hrec.2.2.1, ?_⟩
                  intro a0 h0 hfind
                  exact hrec.2.2.2 a0 (hnone1 tr h0) hfind
              · have heq : uniformitySearchLoop env label total (v :: rest) i bv mm gctx a c ab tr =
                    uniformitySearchLoop env label total rest (i + 1) bv mm tgctx (a + 1) c (ab + 1)
                      (tr ++ [{ value := v, ok := true, mean := m }]) := by
                  simp only [uniformitySearchLoop, if_neg hv, htxn, hm]
                  rw [if_pos trivial]
                  rw [if_neg (by simp)]
                  rw [if_neg hmp]
                  rw [if_neg htie]
                rw [heq]
                have hrec := ih (i + 1) bv mm tgctx (a + 1) c (ab + 1)
                  (tr ++ [{ value := v, ok := true, mean := m }])
                refine ⟨sameShape_trans hshape0 hrec.1, hrec.2.1, hrec.2.2.1, ?_⟩
                intro a0 h0 hfind
                exact hrec.2.2.2 a0 (hnone1 tr h0) hfind

theorem trySchedule_spec (env : Env) (gctx : GangSchedulingContext) :
    sameShape gctx (trySchedule env gctx).gctx ∧
    (∀ r, (trySchedule env gctx).res = .ok (false, r) →
      (trySchedule env gctx).commits = 0) ∧
    (∀ r, (trySchedule env gctx).res = .ok (true, r) →
      r = "" ∧ shouldFailHandled (trySchedule env gctx).gctx) ∧
    (∀ a0, (trySchedule env gctx).trace.find? (minPred env) = some a0 →
      (trySchedule env gctx).res = .ok (true, "") ∧
      (trySchedule env gctx).committedValue = some a0.value) := by
  by_cases hl : gctx.NodeUniformityLabel = ""
  · simp only [trySchedule, if_pos hl]
    refine ⟨tryGang_shape env 0 0 0 gctx, ?_, ?_, ?_⟩
    · intro r hr
      exact (tryGang_cases env 0 0 0 gctx).2 r hr
    · intro r hr
      exact (tryGang_cases env 0 0 0 gctx).1 r hr
    · intro a0 hfind
      exact absurd hfind (by simp)
  · rcases hidx : env.IndexedNodeLabelValues gctx.NodeUniformityLabel with _ | values
    · simp only [trySchedule, if_neg hl, hidx]
      refine ⟨sameShape_refl gctx, ?_, ?_, ?_⟩
      · intro r hr
        trivial
      · intro r hr
        exact absurd hr (by simp)
      · intro a0 hfind
        exact absurd hfind (by simp)
    · by_cases hlen : values.length = 0
      · simp only [trySchedule, if_neg hl, hidx]
        rw [if_pos hlen]
        refine ⟨sameShape_refl gctx, ?_, ?_, ?_⟩
        · intro r hr
          trivial
        · intro r hr
          exact absurd hr (by simp)
        · intro a0 hfind
          exact absurd hfind (by simp)
      · simp only [trySchedule, if_neg hl, hidx]
        rw [if_neg hlen]
        have h := loop_invariants env gctx.NodeUniformityLabel values.length values
          0 "" (some 0) gctx 0 0 0 []
        refine ⟨h.1, h.2.1, h.2.2.1, ?_⟩
        intro a0 hfind
        exact h.2.2.2 a0 (by rfl) hfind

/-! SC-operation field preservation. -/

theorem AddGang_preserves (s : SchedulingContext) (g : GangSchedulingContext) :
    (s.AddGangSchedulingContext g).Started = s.Started ∧
    (s.AddGangSchedulingContext g).Queues = s.Queues ∧
    (s.AddGangSchedulingContext g).GlobalReservations = s.GlobalReservations ∧
    (s.AddGangSchedulingContext g).QueueReservations = s.QueueReservations ∧
    (s.AddGangSchedulingContext g).UnfeasibleSchedulingKeys = s.UnfeasibleSchedulingKeys :=
  ⟨rfl, rfl, rfl, rfl, rfl⟩

theorem AddGang_gangs_mem (s : SchedulingContext) (g : GangSchedulingContext)
    (ids : List String) :
    ids ∈ (s.AddGangSchedulingContext g).gangs ↔
      ids ∈ s.gangs ∨ ids = gangJobIds g := by
  unfold SchedulingContext.AddGangSchedulingContext
  by_cases hmem : gangJobIds g ∈ s.gangs
  · rw [if_pos hmem]
    constructor
    · intro h
      exact Or.inl h
    · intro h
      rcases h with h | h
      · exact h
      · rw [h]
        exact hmem
  · rw [if_neg hmem]
    simp

theorem EvictJob_preserves (s : SchedulingContext) (id : String) :
    (s.EvictJob id).Started = s.Started ∧
    (s.EvictJob id).Queues = s.Queues ∧
    (s.EvictJob id).GlobalReservations = s.GlobalReservations ∧
    (s.EvictJob id).QueueReservations = s.QueueReservations ∧
    (s.EvictJob id).gangs = s.gangs ∧
    (s.EvictJob id).UnfeasibleSchedulingKeys = s.UnfeasibleSchedulingKeys :=
  ⟨rfl, rfl, rfl, rfl, rfl, rfl⟩

theorem EvictGang_preserves (s : SchedulingContext) (ids : List String) :
    (s.EvictGang ids).Started = s.Started ∧
    (s.EvictGang ids).Queues = s.Queues ∧
    (s.EvictGang ids).GlobalReservations = s.GlobalReservations ∧
    (s.EvictGang ids).QueueReservations = s.QueueReservations ∧
    (s.EvictGang ids).UnfeasibleSchedulingKeys = s.UnfeasibleSchedulingKeys :=
  ⟨rfl, rfl, rfl, rfl, rfl⟩

theorem updateOnSuccess_preserves (sctx : SchedulingContext)
    (gctx : GangSchedulingContext) (b : Bool) :
    (updateGangSchedulingContextOnSuccess sctx gctx b).Started = sctx.Started ∧
    (updateGangSchedulingContextOnSuccess sctx gctx b).Queues = sctx.Queues ∧
    (updateGangSchedulingContextOnSuccess sctx gctx b).GlobalReservations =
      sctx.GlobalReservations ∧
    (updateGangSchedulingContextOnSuccess sctx gctx b).QueueReservations =
      sctx.QueueReservations ∧
    (updateGangSchedulingContextOnSuccess sctx gctx b).gangs = sctx.gangs ∧
    (updateGangSchedulingContextOnSuccess sctx gctx b).UnfeasibleSchedulingKeys =
      sctx.UnfeasibleSchedulingKeys := by
  unfold updateGangSchedulingContextOnSuccess
  cases b
  · exact ⟨rfl, rfl, rfl, rfl, rfl, rfl⟩
  · rw [if_neg (by simp)]
    generalize gctx.JobSchedulingContexts = l
    induction l generalizing sctx with
    | nil => exact ⟨rfl, rfl, rfl, rfl, rfl, rfl⟩
    | cons j rest ihl =>
      rw [List.foldl_cons]
      by_cases hs : j.IsSuccessful
      · rw [if_neg (by simp [hs])]
        exact ihl sctx
      · rw [if_pos (by simp [hs])]
        obtain ⟨p1, p2, p3, p4, p5, p6⟩ := ihl (sctx.EvictJob j.JobId)
        exact ⟨p1, p2, p3, p4, p5, p6⟩

theorem reserveTokens_spec (sctx : SchedulingContext) (gctx : GangSchedulingContext) :
    (reserveTokens sctx gctx).Started = sctx.Started ∧
    (reserveTokens sctx gctx).Queues = sctx.Queues ∧
    (reserveTokens sctx gctx).gangs = sctx.gangs ∧
    (reserveTokens sctx gctx).UnfeasibleSchedulingKeys = sctx.UnfeasibleSchedulingKeys ∧
    (reserveTokens sctx gctx).GlobalReservations =
      sctx.GlobalReservations ++ [(sctx.Started, gctx.Cardinality)] ∧
    (reserveTokens sctx gctx).QueueReservations =
      (if gctx.Queue ∈ sctx.Queues then
        sctx.QueueReservations ++ [(gctx.Queue, sctx.Started, gctx.Cardinality)]
      else sctx.QueueReservations) := by
  unfold reserveTokens
  by_cases hq : gctx.Queue ∈ sctx.Queues
  · rw [if_pos hq, if_pos hq]
    exact ⟨rfl, rfl, rfl, rfl, rfl, rfl⟩
  · rw [if_neg hq, if_neg hq]
    exact ⟨rfl, rfl, rfl, rfl, rfl, rfl⟩

theorem map_reason_jobIds (gctx : GangSchedulingContext) (reason : String) :
    gangJobIds { gctx with JobSchedulingContexts := (gctx.JobSchedulingContexts.map
      (fun j => { j with UnschedulableReason := reason })) } = gangJobIds gctx := by
  rw [gangJobIds_with]
  unfold gangJobIds
  apply map_jobId_eq
  intro j
  rfl

/-- The scheduling key the failure path derives for a single-job gang. -/
def derivedKey (env : Env) (jctx : JobSchedulingContext) : String :=
  match jctx.SchedulingKey with
  | some k => k
  | none => env.fallbackKey jctx.JobId

/-- The `UnfeasibleSchedulingKeys` value after the failure bookkeeping, as a
function of the pre-call keys and the final (reason-stamped) members. -/
def unfeasibleAfter (env : Env) (preKeys : List (String × JobSchedulingContext))
    (jscs : List JobSchedulingContext) : List (String × JobSchedulingContext) :=
  if env.skipUnsuccessfulSchedulingKeyCheck = false then
    match jscs with
    | [jctx] =>
      if derivedKey env jctx ≠ EmptySchedulingKey ∧
          preKeys.all (fun q => q.1 ≠ derivedKey env jctx) then
        preKeys ++ [(derivedKey env jctx, jctx)]
      else preKeys
    | _ => preKeys
  else preKeys

theorem registerKey_fields (env : Env) (s : SchedulingContext)
    (g : GangSchedulingContext) :
    (registerUnfeasibleKey env s g).Started = s.Started ∧
    (registerUnfeasibleKey env s g).Queues = s.Queues ∧
    (registerUnfeasibleKey env s g).GlobalReservations = s.GlobalReservations ∧
    (registerUnfeasibleKey env s g).QueueReservations = s.QueueReservations ∧
    (registerUnfeasibleKey env s g).gangs = s.gangs := by
  simp only [registerUnfeasibleKey]
  repeat' split
  all_goals exact ⟨rfl, rfl, rfl, rfl, rfl⟩

theorem registerKey_UK (env : Env) (s : SchedulingContext)
    (g : GangSchedulingContext) :
    (registerUnfeasibleKey env s g).UnfeasibleSchedulingKeys =
      unfeasibleAfter env s.UnfeasibleSchedulingKeys g.JobSchedulingContexts := by
  unfold registerUnfeasibleKey unfeasibleAfter derivedKey
  cases hskip : env.skipUnsuccessfulSchedulingKeyCheck
  · rcases hjs : g.JobSchedulingContexts with _ | ⟨j1, _ | ⟨j2, rest⟩⟩
    · simp [GangSchedulingContext.Cardinality, hjs]
    · simp only [GangSchedulingContext.Cardinality, hjs]
      rw [if_pos trivial]
      split
      · split
        · rfl
        · rfl
      · rename_i hc
        simp at hc
    · simp [GangSchedulingContext.Cardinality, hjs]
  · simp [hskip]

theorem updateOnFailure_spec (env : Env) (sctx : SchedulingContext)
    (gctx : GangSchedulingContext) (reason : String) :
    (updateGangSchedulingContextOnFailure env sctx gctx true reason).2 =
      { gctx with JobSchedulingContexts := (gctx.JobSchedulingContexts.map
          (fun j => { j with UnschedulableReason := reason })) } ∧
    (updateGangSchedulingContextOnFailure env sctx gctx true reason).1.Started =
      sctx.Started ∧
    (updateGangSchedulingContextOnFailure env sctx gctx true reason).1.Queues =
      sctx.Queues ∧
    (updateGangSchedulingContextOnFailure env sctx gctx true reason).1.GlobalReservations =
      sctx.GlobalReservations ∧
    (updateGangSchedulingContextOnFailure env sctx gctx true reason).1.QueueReservations =
      sctx.QueueReservations ∧
    (∀ ids, ids ∈ (updateGangSchedulingContextOnFailure env sctx gctx true reason).1.gangs ↔
      (ids ∈ sctx.gangs ∨ ids = gangJobIds gctx)) ∧
    (updateGangSchedulingContextOnFailure env sctx gctx true reason).1.UnfeasibleSchedulingKeys =
      unfeasibleAfter env sctx.UnfeasibleSchedulingKeys
        (updateGangSchedulingContextOnFailure env sctx gctx true reason).2.JobSchedulingContexts := by
  have hp : updateGangSchedulingContextOnFailure env sctx gctx true reason =
      (registerUnfeasibleKey env
        ((sctx.EvictGang (gangJobIds gctx)).AddGangSchedulingContext
          { gctx with JobSchedulingContexts := (gctx.JobSchedulingContexts.map
              (fun j => { j with UnschedulableReason := reason })) })
        { gctx with JobSchedulingContexts := (gctx.JobSchedulingContexts.map
            (fun j => { j with UnschedulableReason := reason })) },
       { gctx with JobSchedulingContexts := (gctx.JobSchedulingContexts.map
          (fun j => { j with UnschedulableReason := reason })) }) := rfl
  rw [hp]
  obtain ⟨f1, f2, f3, f4, f5⟩ := registerKey_fields env
    ((sctx.EvictGang (gangJobIds gctx)).AddGangSchedulingContext
      { gctx with JobSchedulingContexts := (gctx.JobSchedulingContexts.map
          (fun j => { j with UnschedulableReason := reason })) })
    { gctx with JobSchedulingContexts := (gctx.JobSchedulingContexts.map
        (fun j => { j with UnschedulableReason := reason })) }
  refine ⟨rfl, by rw [f1]; rfl, by rw [f2]; rfl, by rw [f3]; rfl, by rw [f4]; rfl, ?_, ?_⟩
  · intro ids
    rw [f5, AddGang_gangs_mem, map_reason_jobIds]
    unfold SchedulingContext.EvictGang
    simp only [List.mem_filter]
    constructor
    · intro h
      rcases h with h | h
      · exact Or.inl h.1
      · exact Or.inr h
    · intro h
      rcases h with h | h
      · by_cases hid : ids = gangJobIds gctx
        · exact Or.inr hid
        · exact Or.inl ⟨h, by simpa using hid⟩
      · exact Or.inr h
  · rw [registerKey_UK]
    rfl

/-- Whether a `Schedule` result is a successful `(ok=true, err=null)` one. -/
def resOk : Except String (Bool × String) → Bool
  | .ok (true, _) => true
  | _ => false

theorem core_t_spec (env : Env) (sctx : SchedulingContext)
    (gctx : GangSchedulingContext) :
    (scheduleCore env sctx gctx).2.1 = sctx.AddGangSchedulingContext gctx ∧
    (scheduleCore env sctx gctx).2.2 = true ∧
    sameShape gctx (scheduleCore env sctx gctx).1.gctx ∧
    (∀ r, (scheduleCore env sctx gctx).1.res = .ok (false, r) →
      (scheduleCore env sctx gctx).1.commits = 0) ∧
    (∀ r, (scheduleCore env sctx gctx).1.res = .ok (true, r) →
      r = "" ∧ shouldFailHandled (scheduleCore env sctx gctx).1.gctx) := by
  obtain ⟨hs1, hs2, hs3, hs4⟩ := trySchedule_spec env gctx
  unfold scheduleCore
  cases hev : gctx.AllJobsEvicted
  · rcases hg : env.gangRes with e | ⟨cok, cr⟩
    · refine ⟨rfl, rfl, sameShape_refl gctx, ?_, ?_⟩
      · intro r hr
        exact absurd hr (by simp)
      · intro r hr
        exact absurd hr (by simp)
    · cases cok
      · refine ⟨rfl, rfl, sameShape_refl gctx, ?_, ?_⟩
        · intro r hr
          rfl
        · intro r hr
          exact absurd hr (by simp)
      · exact ⟨rfl, rfl, hs1, hs2, hs3⟩
  · exact ⟨rfl, rfl, hs1, hs2, hs3⟩

theorem finish_spec (env : Env) (t : TryResult) (sctx : SchedulingContext)
    (gctx : GangSchedulingContext)
    (hshape : sameShape gctx t.gctx)
    (hfalse : ∀ r, t.res = .ok (false, r) → t.commits = 0)
    (htrue : ∀ r, t.res = .ok (true, r) → r = "" ∧ shouldFailHandled t.gctx) :
    (∀ r, (scheduleFinish env t (sctx.AddGangSchedulingContext gctx) true
        gctx.AllJobsEvicted).res = .ok (false, r) →
      (scheduleFinish env t (sctx.AddGangSchedulingContext gctx) true
        gctx.AllJobsEvicted).commits = 0) ∧
    ((scheduleFinish env t (sctx.AddGangSchedulingContext gctx) true
        gctx.AllJobsEvicted).sctx.GlobalReservations =
      (if (resOk (scheduleFinish env t (sctx.AddGangSchedulingContext gctx) true
            gctx.AllJobsEvicted).res && !gctx.AllJobsEvicted) = true then
        sctx.GlobalReservations ++ [(sctx.Started, gctx.Cardinality)]
      else sctx.GlobalReservations)) ∧
    ((scheduleFinish env t (sctx.AddGangSchedulingContext gctx) true
        gctx.AllJobsEvicted).sctx.QueueReservations =
      (if (resOk (scheduleFinish env t (sctx.AddGangSchedulingContext gctx) true
            gctx.AllJobsEvicted).res && !gctx.AllJobsEvicted &&
            decide (gctx.Queue ∈ sctx.Queues)) = true then
        sctx.QueueReservations ++ [(gctx.Queue, sctx.Started, gctx.Cardinality)]
      else sctx.QueueReservations)) ∧
    ((scheduleFinish env t (sctx.AddGangSchedulingContext gctx) true
        gctx.AllJobsEvicted).sctx.UnfeasibleSchedulingKeys =
      (match (scheduleFinish env t (sctx.AddGangSchedulingContext gctx) true
          gctx.AllJobsEvicted).res with
       | .ok (false, _) =>
         unfeasibleAfter env sctx.UnfeasibleSchedulingKeys
           (scheduleFinish env t (sctx.AddGangSchedulingContext gctx) true
             gctx.AllJobsEvicted).gctx.JobSchedulingContexts
       | _ => sctx.UnfeasibleSchedulingKeys)) ∧
    (∀ r, (scheduleFinish env t (sctx.AddGangSchedulingContext gctx) true
        gctx.AllJobsEvicted).res = .ok (true, r) →
      r = "" ∧
      shouldFailHandled (scheduleFinish env t (sctx.AddGangSchedulingContext gctx)
        true gctx.AllJobsEvicted).gctx ∧
      (∀ ids, ids ∈ (scheduleFinish env t (sctx.AddGangSchedulingContext gctx) true
          gctx.AllJobsEvicted).sctx.gangs ↔
        (ids ∈ sctx.gangs ∨ ids = gangJobIds gctx))) ∧
    (∀ r, (scheduleFinish env t (sctx.AddGangSchedulingContext gctx) true
        gctx.AllJobsEvicted).res = .ok (false, r) →
      gangJobIds gctx ∈ (scheduleFinish env t (sctx.AddGangSchedulingContext gctx)
        true gctx.AllJobsEvicted).sctx.gangs ∧
      ∀ j ∈ (scheduleFinish env t (sctx.AddGangSchedulingContext gctx) true
        gctx.AllJobsEvicted).gctx.JobSchedulingContexts,
        j.UnschedulableReason = r) ∧
    gangJobIds (scheduleFinish env t (sctx.AddGangSchedulingContext gctx) true
      gctx.AllJobsEvicted).gctx = gangJobIds t.gctx := by
  obtain ⟨a1, a2, a3, a4, a5⟩ := AddGang_preserves sctx gctx
  rcases hres : t.res with e | ⟨ok, reason⟩
  · -- internal error: no bookkeeping
    have heq : scheduleFinish env t (sctx.AddGangSchedulingContext gctx) true
        gctx.AllJobsEvicted =
        { res := .error e, gctx := t.gctx,
          sctx := sctx.AddGangSchedulingContext gctx, commits := t.commits,
          aborts := t.aborts, committedValue := t.committedValue,
          trace := t.trace } := by
      simp only [scheduleFinish, hres]
    rw [heq]
    refine ⟨?_, ?_, ?_, ?_, ?_, ?_, rfl⟩
    · intro r hr
      exact absurd hr (by simp)
    · rw [if_neg (by simp [resOk])]
      exact a3
    · rw [if_neg (by simp [resOk])]
      exact a4
    · exact a5
    · intro r hr
      exact absurd hr (by simp)
    · intro r hr
      exact absurd hr (by simp)
  · cases ok
    · -- not scheduled: failure bookkeeping
      have heq : scheduleFinish env t (sctx.AddGangSchedulingContext gctx) true
          gctx.AllJobsEvicted =
          { res := .ok (false, reason),
            gctx := (updateGangSchedulingContextOnFailure env
              (sctx.AddGangSchedulingContext gctx) t.gctx true reason).2,
            sctx := (updateGangSchedulingContextOnFailure env
              (sctx.AddGangSchedulingContext gctx) t.gctx true reason).1,
            commits := t.commits, aborts := t.aborts,
            committedValue := t.committedValue, trace := t.trace } := by
        simp only [scheduleFinish, hres]
        rfl
      rw [heq]
      obtain ⟨u1, u2, u3, u4, u5, u6, u7⟩ :=
        updateOnFailure_spec env (sctx.AddGangSchedulingContext gctx) t.gctx reason
      refine ⟨?_, ?_, ?_, ?_, ?_, ?_, ?_⟩
      · intro r hr
        exact hfalse reason hres
      · rw [if_neg (by simp [resOk])]
        rw [u4, a3]
      · rw [if_neg (by simp [resOk])]
        rw [u5, a4]
      · rw [u7, a5]
      · intro r hr
        exact absurd hr (by simp)
      · intro r hr
        have hrr : reason = r := by
          simpa using hr
        subst hrr
        constructor
        · exact (u6 (gangJobIds gctx)).2 (Or.inr hshape.2.2.2.symm)
        · intro j hj
          rw [u1] at hj
          simp only [List.mem_map] at hj
          obtain ⟨j', -, rfl⟩ := hj
          rfl
      · rw [u1, map_reason_jobIds]
    · -- scheduled: success bookkeeping
      have heq : scheduleFinish env t (sctx.AddGangSchedulingContext gctx) true
          gctx.AllJobsEvicted =
          { res := .ok (true, reason), gctx := t.gctx,
            sctx := updateGangSchedulingContextOnSuccess
              (if (true && !gctx.AllJobsEvicted) = true then
                reserveTokens (sctx.AddGangSchedulingContext gctx) t.gctx
              else sctx.AddGangSchedulingContext gctx) t.gctx true,
            commits := t.commits, aborts := t.aborts,
            committedValue := t.committedValue, trace := t.trace } := by
        simp only [scheduleFinish, hres]
        rfl
      rw [heq]
      refine ⟨?_, ?_, ?_, ?_, ?_, ?_, rfl⟩
      · intro r hr
        exact absurd hr (by simp)
      · cases hev : gctx.AllJobsEvicted
        · rw [(updateOnSuccess_preserves _ t.gctx true).2.2.1]
          rw [if_pos (by simp)]
          rw [(reserveTokens_spec _ t.gctx).2.2.2.2.1]
          rw [a3, a1, sameShape_cardinality hshape]
          rw [if_pos (by simp [resOk])]
        · rw [(updateOnSuccess_preserves _ t.gctx true).2.2.1]
          rw [if_neg (by simp)]
          rw [if_neg (by simp [resOk])]
          exact a3
      · cases hev : gctx.AllJobsEvicted
        · rw [(updateOnSuccess_preserves _ t.gctx true).2.2.2.1]
          rw [if_pos (by simp)]
          rw [(reserveTokens_spec _ t.gctx).2.2.2.2.2]
          rw [a1, a2, a4, sameShape_cardinality hshape, hshape.1]
          by_cases hq : gctx.Queue ∈ sctx.Queues
          · rw [if_pos hq, if_pos (by simp [resOk, hq])]
          · rw [if_neg hq, if_neg (by simp [resOk, hq])]
        · rw [(updateOnSuccess_preserves _ t.gctx true).2.2.2.1]
          rw [if_neg (by simp)]
          rw [if_neg (by simp [resOk])]
          exact a4
      · rw [(updateOnSuccess_preserves _ t.gctx true).2.2.2.2.2]
        cases hev : gctx.AllJobsEvicted
        · rw [if_pos (by simp)]
          rw [(reserveTokens_spec _ t.gctx).2.2.2.1]
          exact a5
        · rw [if_neg (by simp)]
          exact a5
      · intro r hr
        have hrr : reason = r := by
          simpa using hr
        subst hrr
        obtain ⟨e1, e2⟩ := htrue reason hres
        refine ⟨e1, e2, ?_⟩
        intro ids
        rw [(updateOnSuccess_preserves _ t.gctx true).2.2.2.2.1]
        cases hev : gctx.AllJobsEvicted
        · rw [if_pos (by simp)]
          rw [(reserveTokens_spec _ t.gctx).2.2.1]
          exact AddGang_gangs_mem sctx gctx ids
        · rw [if_neg (by simp)]
          exact AddGang_gangs_mem sctx gctx ids
      · intro r hr
        exact absurd hr (by simp)

theorem schedule_spec (env : Env) (sctx : SchedulingContext)
    (gctx : GangSchedulingContext) :
    (∀ r, (Schedule env sctx gctx).res = .ok (false, r) →
      (Schedule env sctx gctx).commits = 0) ∧
    ((Schedule env sctx gctx).sctx.GlobalReservations =
      (if (resOk (Schedule env sctx gctx).res && !gctx.AllJobsEvicted) = true then
        sctx.GlobalReservations ++ [(sctx.Started, gctx.Cardinality)]
      else sctx.GlobalReservations)) ∧
    ((Schedule env sctx gctx).sctx.QueueReservations =
      (if (resOk (Schedule env sctx gctx).res && !gctx.AllJobsEvicted &&
          decide (gctx.Queue ∈ sctx.Queues)) = true then
        sctx.QueueReservations ++ [(gctx.Queue, sctx.Started, gctx.Cardinality)]
      else sctx.QueueReservations)) ∧
    ((Schedule env sctx gctx).sctx.UnfeasibleSchedulingKeys =
      (match (Schedule env sctx gctx).res with
       | .ok (false, _) =>
         if roundGateFailed env gctx = false then
           unfeasibleAfter env sctx.UnfeasibleSchedulingKeys
             (Schedule env sctx gctx).gctx.JobSchedulingContexts
         else sctx.UnfeasibleSchedulingKeys
       | _ => sctx.UnfeasibleSchedulingKeys)) ∧
    (∀ r, (Schedule env sctx gctx).res = .ok (true, r) →
      r = "" ∧ shouldFailHandled (Schedule env sctx gctx).gctx ∧
      (∀ ids, ids ∈ (Schedule env sctx gctx).sctx.gangs ↔
        (ids ∈ sctx.gangs ∨ ids = gangJobIds gctx))) ∧
    (∀ r, (Schedule env sctx gctx).res = .ok (false, r) →
      (if roundGateFailed env gctx = true then
        (Schedule env sctx gctx).sctx = sctx ∧ (Schedule env sctx gctx).gctx = gctx
      else
        gangJobIds gctx ∈ (Schedule env sctx gctx).sctx.gangs ∧
        ∀ j ∈ (Schedule env sctx gctx).gctx.JobSchedulingContexts,
          j.UnschedulableReason = r)) ∧
    gangJobIds (Schedule env sctx gctx).gctx = gangJobIds gctx := by
  cases hev : gctx.AllJobsEvicted
  · rcases hrr : env.roundRes with e | ⟨rok, rr⟩
    · -- round check internal error
      have heq : Schedule env sctx gctx =
          { res := .error e, gctx := gctx, sctx := sctx, commits := 0,
            aborts := 0, committedValue := none, trace := [] } := by
        simp only [Schedule, hev, hrr]
        rfl
      rw [heq]
      refine ⟨?_, ?_, ?_, ?_, ?_, ?_, rfl⟩
      · intro r hr
        exact absurd hr (by simp)
      · rw [if_neg (by simp [resOk])]
      · rw [if_neg (by simp [resOk])]
      · rfl
      · intro r hr
        exact absurd hr (by simp)
      · intro r hr
        exact absurd hr (by simp)
    · cases rok
      · -- Step-1 round gate failure: return before the deferred bookkeeping
        have heq : Schedule env sctx gctx =
            { res := .ok (false, rr), gctx := gctx, sctx := sctx, commits := 0,
              aborts := 0, committedValue := none, trace := [] } := by
          simp only [Schedule, hev, hrr]
          rfl
        have hgate : roundGateFailed env gctx = true := by
          simp [roundGateFailed, hev, hrr]
        rw [heq]
        refine ⟨?_, ?_, ?_, ?_, ?_, ?_, rfl⟩
        · intro r hr
          rfl
        · rw [if_neg (by simp [resOk])]
        · rw [if_neg (by simp [resOk])]
        · show sctx.UnfeasibleSchedulingKeys =
            (if roundGateFailed env gctx = false then
              unfeasibleAfter env sctx.UnfeasibleSchedulingKeys
                gctx.JobSchedulingContexts
            else sctx.UnfeasibleSchedulingKeys)
          rw [hgate]
          rw [if_neg (by simp)]
        · intro r hr
          exact absurd hr (by simp)
        · intro r hr
          rw [hgate]
          rw [if_pos rfl]
          exact ⟨rfl, rfl⟩
      · -- round gate passed
        have heq : Schedule env sctx gctx =
            scheduleFinish env (scheduleCore env sctx gctx).1
              (scheduleCore env sctx gctx).2.1 (scheduleCore env sctx gctx).2.2
              gctx.AllJobsEvicted := by
          simp only [Schedule, hev, hrr]
          rfl
        have hgate : roundGateFailed env gctx = false := by
          simp [roundGateFailed, hev, hrr]
        obtain ⟨c1, c2, c3, c4, c5⟩ := core_t_spec env sctx gctx
        rw [c1, c2] at heq
        have hfin := finish_spec env (scheduleCore env sctx gctx).1 sctx gctx c3 c4 c5
        rw [hev] at heq hfin
        rw [heq]
        refine ⟨hfin.1, hfin.2.1, hfin.2.2.1, ?_, hfin.2.2.2.2.1, ?_, ?_⟩
        · rw [hgate]
          have hfin4 := hfin.2.2.2.1
          rw [hfin4]
          rcases (scheduleFinish env (scheduleCore env sctx gctx).1
              (sctx.AddGangSchedulingContext gctx) true false).res
            with e2 | ⟨ok2, r2⟩
          · rfl
          · cases ok2
            · rw [if_pos rfl]
            · rfl
        · intro r hr
          rw [hgate]
          rw [if_neg (by simp)]
          exact hfin.2.2.2.2.2.1 r hr
        · rw [hfin.2.2.2.2.2.2]
          exact c3.2.2.2
  · -- fully evicted gang: the round gate is skipped
    have heq : Schedule env sctx gctx =
        scheduleFinish env (scheduleCore env sctx gctx).1
          (scheduleCore env sctx gctx).2.1 (scheduleCore env sctx gctx).2.2
          gctx.AllJobsEvicted := by
      simp only [Schedule, hev]
      rfl
    have hgate : roundGateFailed env gctx = false := by
      simp [roundGateFailed, hev]
    obtain ⟨c1, c2, c3, c4, c5⟩ := core_t_spec env sctx gctx
    rw [c1, c2] at heq
    have hfin := finish_spec env (scheduleCore env sctx gctx).1 sctx gctx c3 c4 c5
    rw [hev] at heq hfin
    rw [heq]
    refine ⟨hfin.1, hfin.2.1, hfin.2.2.1, ?_, hfin.2.2.2.2.1, ?_, ?_⟩
    · rw [hgate]
      have hfin4 := hfin.2.2.2.1
      rw [hfin4]
      rcases (scheduleFinish env (scheduleCore env sctx gctx).1
          (sctx.AddGangSchedulingContext gctx) true true).res
        with e2 | ⟨ok2, r2⟩
      · rfl
      · cases ok2
        · rw [if_pos rfl]
        · rfl
    · intro r hr
      rw [hgate]
      rw [if_neg (by simp)]
      exact hfin.2.2.2.2.2.1 r hr
    · rw [hfin.2.2.2.2.2.2]
      exact c3.2.2.2

/-! ## Concrete scenarios used by counterexamples and witnesses -/

def sctxW : SchedulingContext :=
  { Started := 100, Queues := [("q1")], GlobalReservations := [],
    QueueReservations := [], gangs := [], jobs := [],
    UnfeasibleSchedulingKeys := [] }

def gctxW1 : GangSchedulingContext :=
  { Queue := "q1", JobSchedulingContexts := [jsc1],
    NodeUniformityLabel := "", AllJobsEvicted := false }

def envOkW : Env :=
  { roundRes := .ok (true, ""), gangRes := .ok (true, ""),
    IndexedNodeLabelValues := fun _ => none,
    scheduleMany := fun _ _ => .ok (true, fun _ =>
      some { NodeId := "n1", ScheduledAtPriority := 3 }),
    MinPriority := 0, fallbackKey := fun _ => "",
    skipUnsuccessfulSchedulingKeyCheck := false }

def envNoFitW : Env :=
  { envOkW with scheduleMany := fun _ _ => .ok (false, fun _ => none) }

def envGateW : Env :=
  { envOkW with roundRes := .ok (false, ("round cap reached")) }

def gctxW2 : GangSchedulingContext :=
  { Queue := "q1", JobSchedulingContexts := [jsc1, jsc2],
    NodeUniformityLabel := "", AllJobsEvicted := false }

def sctxPreW : SchedulingContext :=
  { sctxW with UnfeasibleSchedulingKeys := [(("k0"), jsc1)] }

def envUW : Env :=
  { envOkW with
    IndexedNodeLabelValues := fun l =>
      if l = "zone" then some [("A"), ("B")] else none,
    scheduleMany := fun n _ => .ok (true, fun _ =>
      some { NodeId := "n1", ScheduledAtPriority := if n = 0 then 3 else 0 }) }

def gctxUW : GangSchedulingContext :=
  { gctxW1 with NodeUniformityLabel := "zone" }

def envWrapW : Env :=
  { envOkW with
    MinPriority := -1,
    IndexedNodeLabelValues := fun l =>
      if l = "zone" then some [("A")] else none,
    scheduleMany := fun _ _ => .ok (true, fun _ =>
      some { NodeId := "n1", ScheduledAtPriority := 2147483647 }) }

def gctxWrapW : GangSchedulingContext :=
  { gctxW2 with NodeUniformityLabel := "zone" }

/-! ## C1 -/

/-- Counterexample to C1 as stated: when `Schedule` returns `ok=false` from
the Step-1 round gate, the call returns before the deferred bookkeeping is
registered, so the gang is not tracked in the SC and no JSC carries the
returned reason — contradicting the claim's "including when Schedule returns
ok=false from the round gate of Step 1". -/
theorem C1_counterexample :
    (Schedule envGateW sctxW gctxW1).res = .ok (false, ("round cap reached")) ∧
    ¬ gangJobIds gctxW1 ∈ (Schedule envGateW sctxW gctxW1).sctx.gangs ∧
    ((Schedule envGateW sctxW gctxW1).gctx.JobSchedulingContexts.map
      (fun j => j.UnschedulableReason)) = [("")] := by
  refine ⟨rfl, ?_, rfl⟩
  show ¬ gangJobIds gctxW1 ∈ ([] : List (List String))
  simp

/-- C1, amended: for every `Schedule` call returning `err=null`, if `ok=true`
the SC's set of tracked gangs is the pre-call set plus this gang; if
`ok=false` and the call passed the Step-1 round gate, the gang is tracked
with every JSC carrying the returned reason; if `ok=false` came from the
round gate itself, no SC or gang mutation occurs. -/
theorem C1_tracked_gangs (env : Env) (sctx : SchedulingContext)
    (gctx : GangSchedulingContext) (okv : Bool) (r : String)
    (h : (Schedule env sctx gctx).res = .ok (okv, r)) :
    (okv = true → ∀ ids, ids ∈ (Schedule env sctx gctx).sctx.gangs ↔
      (ids ∈ sctx.gangs ∨ ids = gangJobIds gctx)) ∧
    (okv = false → roundGateFailed env gctx = false →
      gangJobIds gctx ∈ (Schedule env sctx gctx).sctx.gangs ∧
      ∀ j ∈ (Schedule env sctx gctx).gctx.JobSchedulingContexts,
        j.UnschedulableReason = r) ∧
    (okv = false → roundGateFailed env gctx = true →
      (Schedule env sctx gctx).sctx = sctx ∧
      (Schedule env sctx gctx).gctx = gctx) := by
  refine ⟨?_, ?_, ?_⟩
  · intro hok
    subst hok
    exact ((schedule_spec env sctx gctx).2.2.2.2.1 r h).2.2
  · intro hok hgate
    subst hok
    have h6 := (schedule_spec env sctx gctx).2.2.2.2.2.1 r h
    rw [hgate] at h6
    rw [if_neg (by simp)] at h6
    exact h6
  · intro hok hgate
    subst hok
    have h6 := (schedule_spec env sctx gctx).2.2.2.2.2.1 r h
    rw [hgate] at h6
    rw [if_pos rfl] at h6
    exact h6

/-- Witness for C1 at a concrete successful call. -/
theorem C1_witness :
    gangJobIds gctxW1 ∈ (Schedule envOkW sctxW gctxW1).sctx.gangs ↔
      (gangJobIds gctxW1 ∈ sctxW.gangs ∨ gangJobIds gctxW1 = gangJobIds gctxW1) :=
  (C1_tracked_gangs envOkW sctxW gctxW1 true "" (by rfl)).1 rfl (gangJobIds gctxW1)

/-! ## C2 -/

/-- Counterexample to C2 as stated: when the gang fails (`ok=false`), the
failure bookkeeping overwrites every JSC's `UnschedulableReason` with the
gang-level reason, so a `ShouldFail` member of a failed multi-job gang ends
with the minimum-cardinality message, not "job does not fit on any node". -/
theorem C2_counterexample :
    (Schedule envNoFitW sctxW gctxW2).res =
      .ok (false, ("unable to schedule gang since minimum cardinality not met")) ∧
    ((Schedule envNoFitW sctxW gctxW2).gctx.JobSchedulingContexts.map
      (fun j => (j.ShouldFail, j.UnschedulableReason))) =
      [(false, ("unable to schedule gang since minimum cardinality not met")),
       (true, ("unable to schedule gang since minimum cardinality not met"))] := by
  exact ⟨rfl, rfl⟩

/-- C2, amended: for every `Schedule` call that returns `ok=true` (with
`err=null`), every JSC of the gang whose `ShouldFail` flag is true ends with
an empty `NodeId` on its PodSchedulingContext (when one exists) and with
`UnschedulableReason = "job does not fit on any node"`.  On `ok=false` the
failure bookkeeping stamps the gang-level reason on every member instead. -/
theorem C2_should_fail (env : Env) (sctx : SchedulingContext)
    (gctx : GangSchedulingContext) (r : String)
    (h : (Schedule env sctx gctx).res = .ok (true, r)) :
    ∀ j ∈ (Schedule env sctx gctx).gctx.JobSchedulingContexts,
      j.ShouldFail = true →
      (∀ p, j.PodSchedulingContext = some p → p.NodeId = "") ∧
      j.UnschedulableReason = "job does not fit on any node" :=
  fun j hj hsf =>
    ((schedule_spec env sctx gctx).2.2.2.2.1 r h).2.1 j hj hsf

/-- Witness for C2 at a concrete successful call with a `ShouldFail`
member. -/
theorem C2_witness :
    (((Schedule envOkW sctxW gctxW2).gctx.JobSchedulingContexts.getD 1 jsc1)
      |>.UnschedulableReason) = "job does not fit on any node" :=
  (C2_should_fail envOkW sctxW gctxW2 "" (by rfl)
    ((Schedule envOkW sctxW gctxW2).gctx.JobSchedulingContexts.getD 1 jsc1)
    (by decide) (by decide)).2

/-! ## C5 -/

/-- C5: in the uniformity-label search, if some attempted label value yields
a successful placement whose mean scheduled-at-priority equals
`float64(MinPriority)`, the search commits and returns at the earliest such
value in iteration order (the `find?` witness of the attempt trace).  The
mean is the binary64 quotient of the wrapping-`int32` sum by the
cardinality, rounded to nearest with ties to even, exactly as the Go
computes it; `NaN` never satisfies the predicate. -/
theorem C5_uniformity_minimality (env : Env) (gctx : GangSchedulingContext)
    (a0 : AttemptRecord)
    (h : (trySchedule env gctx).trace.find? (minPred env) = some a0) :
    (trySchedule env gctx).res = .ok (true, "") ∧
    (trySchedule env gctx).committedValue = some a0.value :=
  (trySchedule_spec env gctx).2.2.2 a0 h

/-- Witness for C5: with values `A` then `B`, where `A` yields mean 3 and `B`
yields the best possible mean 0, the search commits `B`; and with two jobs
at `ScheduledAtPriority = 2147483647` and `MinPriority = -1`, the wrapped
`int32` sum is `-2`, so the mean is `-1 = float64(MinPriority)` and the
search commits at that value. -/
theorem C5_witness :
    ((trySchedule envUW gctxUW).res = .ok (true, "") ∧
     (trySchedule envUW gctxUW).committedValue =
       some (({ value := "B", ok := true, mean := some 0 } : AttemptRecord)).value) ∧
    ((trySchedule envWrapW gctxWrapW).res = .ok (true, "") ∧
     (trySchedule envWrapW gctxWrapW).committedValue =
       some (({ value := "A", ok := true, mean := some (-1) } : AttemptRecord)).value) :=
  ⟨C5_uniformity_minimality envUW gctxUW
     { value := "B", ok := true, mean := some 0 } (by decide),
   C5_uniformity_minimality envWrapW gctxWrapW
     { value := "A", ok := true, mean := some (-1) } (by decide)⟩

/-! ## C6 -/

/-- C6: a `Schedule` call appends a reservation of `Cardinality()` tokens at
the round start time to the global rate limiter, and to the queue's limiter
when the queue has a queue scheduling context, exactly when the call returns
`ok=true` for a gang that is not fully evicted; otherwise the reservation
lists are unchanged. -/
theorem C6_rate_limiter (env : Env) (sctx : SchedulingContext)
    (gctx : GangSchedulingContext) :
    ((Schedule env sctx gctx).sctx.GlobalReservations =
      (if (resOk (Schedule env sctx gctx).res && !gctx.AllJobsEvicted) = true then
        sctx.GlobalReservations ++ [(sctx.Started, gctx.Cardinality)]
      else sctx.GlobalReservations)) ∧
    ((Schedule env sctx gctx).sctx.QueueReservations =
      (if (resOk (Schedule env sctx gctx).res && !gctx.AllJobsEvicted &&
          decide (gctx.Queue ∈ sctx.Queues)) = true then
        sctx.QueueReservations ++ [(gctx.Queue, sctx.Started, gctx.Cardinality)]
      else sctx.QueueReservations)) :=
  ⟨(schedule_spec env sctx gctx).2.1, (schedule_spec env sctx gctx).2.2.1⟩

/-! ## C7 -/

/-- C7: across any `Schedule` call the `UnfeasibleSchedulingKeys` map only
ever grows — every pre-call entry survives unchanged (so a present key's
witnessing JSC is never overwritten), and at most one entry is appended,
which happens only when the call fails with `err=null` for a gang of
cardinality 1 while the suppression flag is off and the derived scheduling
key is non-empty and not already present. -/
theorem C7_unfeasible_keys (env : Env) (sctx : SchedulingContext)
    (gctx : GangSchedulingContext) :
    (∀ p, p ∈ sctx.UnfeasibleSchedulingKeys →
      p ∈ (Schedule env sctx gctx).sctx.UnfeasibleSchedulingKeys) ∧
    ((Schedule env sctx gctx).sctx.UnfeasibleSchedulingKeys =
        sctx.UnfeasibleSchedulingKeys ∨
      ∃ key jctx, (Schedule env sctx gctx).sctx.UnfeasibleSchedulingKeys =
          sctx.UnfeasibleSchedulingKeys ++ [(key, jctx)] ∧
        (∃ r, (Schedule env sctx gctx).res = .ok (false, r)) ∧
        gctx.Cardinality = 1 ∧
        env.skipUnsuccessfulSchedulingKeyCheck = false ∧
        key ≠ EmptySchedulingKey ∧
        (∀ q, q ∈ sctx.UnfeasibleSchedulingKeys → q.1 ≠ key)) := by
  have h4 := (schedule_spec env sctx gctx).2.2.2.1
  have h7 := (schedule_spec env sctx gctx).2.2.2.2.2.2
  have hb : (Schedule env sctx gctx).sctx.UnfeasibleSchedulingKeys =
        sctx.UnfeasibleSchedulingKeys ∨
      ∃ key jctx, (Schedule env sctx gctx).sctx.UnfeasibleSchedulingKeys =
          sctx.UnfeasibleSchedulingKeys ++ [(key, jctx)] ∧
        (∃ r, (Schedule env sctx gctx).res = .ok (false, r)) ∧
        gctx.Cardinality = 1 ∧
        env.skipUnsuccessfulSchedulingKeyCheck = false ∧
        key ≠ EmptySchedulingKey ∧
        (∀ q, q ∈ sctx.UnfeasibleSchedulingKeys → q.1 ≠ key) := by
    rcases hres : (Schedule env sctx gctx).res with e | ⟨b, r⟩
    · rw [hres] at h4
      exact Or.inl h4
    · cases b
      · rw [hres] at h4
        by_cases hgate : roundGateFailed env gctx = true
        · rw [hgate] at h4
          have h4' : (Schedule env sctx gctx).sctx.UnfeasibleSchedulingKeys =
              (if (true = false) then
                unfeasibleAfter env sctx.UnfeasibleSchedulingKeys
                  (Schedule env sctx gctx).gctx.JobSchedulingContexts
              else sctx.UnfeasibleSchedulingKeys) := h4
          rw [if_neg (by simp)] at h4'
          exact Or.inl h4'
        · have hg : roundGateFailed env gctx = false := by
            simpa using hgate
          rw [hg] at h4
          have h4' : (Schedule env sctx gctx).sctx.UnfeasibleSchedulingKeys =
              unfeasibleAfter env sctx.UnfeasibleSchedulingKeys
                (Schedule env sctx gctx).gctx.JobSchedulingContexts := by
            rw [h4]
            rw [if_pos rfl]
          unfold unfeasibleAfter at h4'
          cases hskip : env.skipUnsuccessfulSchedulingKeyCheck
          · rw [hskip] at h4'
            rw [if_pos rfl] at h4'
            rcases hjs : (Schedule env sctx gctx).gctx.JobSchedulingContexts
              with _ | ⟨j1, _ | ⟨j2, rest⟩⟩
            · rw [hjs] at h4'
              exact Or.inl h4'
            · rw [hjs] at h4'
              have h4'' : (Schedule env sctx gctx).sctx.UnfeasibleSchedulingKeys =
                  (if derivedKey env j1 ≠ EmptySchedulingKey ∧
                      (sctx.UnfeasibleSchedulingKeys.all
                        (fun q => decide (q.1 ≠ derivedKey env j1))) = true then
                    sctx.UnfeasibleSchedulingKeys ++ [(derivedKey env j1, j1)]
                  else sctx.UnfeasibleSchedulingKeys) := h4'
              have hcard : gctx.Cardinality = 1 := by
                have hlen := congrArg List.length h7
                unfold gangJobIds at hlen
                rw [hjs] at hlen
                simp only [List.length_map] at hlen
                unfold GangSchedulingContext.Cardinality
                rw [← hlen]
                rfl
              by_cases hkey : derivedKey env j1 ≠ EmptySchedulingKey ∧
                  (sctx.UnfeasibleSchedulingKeys.all
                    (fun q => decide (q.1 ≠ derivedKey env j1))) = true
              · rw [if_pos hkey] at h4''
                refine Or.inr ⟨derivedKey env j1, j1, h4'', ⟨r, rfl⟩, hcard,
                  rfl, hkey.1, ?_⟩
                intro q hq
                have hall := hkey.2
                simp only [List.all_eq_true, decide_eq_true_eq] at hall
                exact hall q hq
              · rw [if_neg hkey] at h4''
                exact Or.inl h4''
            · rw [hjs] at h4'
              exact Or.inl h4'
          · rw [hskip] at h4'
            rw [if_neg (by simp)] at h4'
            exact Or.inl h4'
      · rw [hres] at h4
        exact Or.inl h4
  refine ⟨?_, hb⟩
  intro p hp
  rcases hb with hb | ⟨key, jctx, heqUK, -⟩
  · rw [hb]
    exact hp
  · rw [heqUK]
    exact List.mem_append_left _ hp

/-- Witness for C7: a pre-existing cache entry survives a failed single-job
call that adds a new entry. -/
theorem C7_witness :
    (("k0"), jsc1) ∈ (Schedule envNoFitW sctxPreW gctxW1).sctx.UnfeasibleSchedulingKeys :=
  (C7_unfeasible_keys envNoFitW sctxPreW gctxW1).1 (("k0"), jsc1) (by decide)

/-! ## C8 -/

/-- C8: for every `Schedule` call that returns `ok=false` with `err=null`,
no node database transaction opened by that call was committed. -/
theorem C8_no_commit_on_failure (env : Env) (sctx : SchedulingContext)
    (gctx : GangSchedulingContext) (r : String)
    (h : (Schedule env sctx gctx).res = .ok (false, r)) :
    (Schedule env sctx gctx).commits = 0 :=
  (schedule_spec env sctx gctx).1 r h

/-- Witness for C8 at a concrete no-fit call. -/
theorem C8_witness : (Schedule envNoFitW sctxW gctxW1).commits = 0 :=
  C8_no_commit_on_failure envNoFitW sctxW gctxW1
    ("job does not fit on any node") (by rfl)

end ArmadaSpec
